import Mathlib

/-!
A verification development for the littlelang interpreter (tokenizer,
parser and tree-walk evaluator written in Go).  The Go sources are
shallowly embedded: pure Go functions become Lean functions, the
tokenizer and parser become fuel-indexed state machines, and the
evaluator becomes a fuel-indexed interpreter over an explicit heap
(lists, maps and scopes have reference semantics in the source, so they
are represented by addresses into per-kind heaps).  Go strings are byte
sequences, so littlelang `str` values are modelled as `List Nat` of
bytes.  `panic` with an interpreter error value is modelled by an error
result; a Go runtime panic (or a panic with a non-error value, which the
`recover` blocks in `ParseProgram` / `Execute` re-raise) is modelled by
a distinct `hostPanic` result.
-/

namespace LL

/-- Go byte strings: a littlelang `str` is a sequence of bytes. -/
abbrev Bytes := List Nat

/-- Source position, 1-based line and column (tokenizer.Position). -/
structure Position where
  line : Nat
  column : Nat
deriving DecidableEq, Repr

/-- Lexicographic (line, column) order on positions. -/
def posLe (a b : Position) : Prop :=
  a.line < b.line ∨ (a.line = b.line ∧ a.column ≤ b.column)

instance (a b : Position) : Decidable (posLe a b) := by
  unfold posLe; infer_instance

theorem posLe_refl (a : Position) : posLe a a := Or.inr ⟨rfl, Nat.le_refl _⟩

theorem posLe_trans {a b c : Position} (h₁ : posLe a b) (h₂ : posLe b c) :
    posLe a c := by
  rcases h₁ with h₁ | ⟨e₁, l₁⟩
  · rcases h₂ with h₂ | ⟨e₂, _⟩
    · exact Or.inl (Nat.lt_trans h₁ h₂)
    · exact Or.inl (e₂ ▸ h₁)
  · rcases h₂ with h₂ | ⟨e₂, l₂⟩
    · exact Or.inl (e₁ ▸ h₂)
    · exact Or.inr ⟨e₁.trans e₂, Nat.le_trans l₁ l₂⟩

/-- Token kinds (tokenizer.Token constants).  Keyword and literal kinds
carry a `T` suffix to avoid clashing with Lean keywords. -/
inductive Tok where
  | illegalT | eofT
  | assignT | colonT | commaT | divideT | dotT | gtT | lbraceT | lbracketT
  | lparenT | ltT | minusT | moduloT | plusT | rbraceT | rbracketT
  | rparenT | timesT
  | equalT | gteT | lteT | notequalT
  | ellipsisT
  | andT | elseT | falseT | forT | funcT | ifT | inT | nilT | notT | orT
  | returnT | trueT | whileT
  | intT | nameT | strT
deriving DecidableEq, Repr

/-- Keyword table (tokenizer keywordTokens). -/
def keywordTok (s : String) : Option Tok :=
  if s = "and" then some .andT
  else if s = "else" then some .elseT
  else if s = "false" then some .falseT
  else if s = "for" then some .forT
  else if s = "func" then some .funcT
  else if s = "if" then some .ifT
  else if s = "in" then some .inT
  else if s = "nil" then some .nilT
  else if s = "not" then some .notT
  else if s = "or" then some .orT
  else if s = "return" then some .returnT
  else if s = "true" then some .trueT
  else if s = "while" then some .whileT
  else none

/-- Printable name of a token kind (tokenizer tokenNames), used in
parser error messages. -/
def tokName : Tok → String
  | .illegalT => "ILLEGAL"
  | .eofT => "EOF"
  | .assignT => "="
  | .colonT => ":"
  | .commaT => ","
  | .divideT => "/"
  | .dotT => "."
  | .gtT => ">"
  | .lbraceT => "\x7b"
  | .lbracketT => "["
  | .lparenT => "("
  | .ltT => "<"
  | .minusT => "-"
  | .moduloT => "%"
  | .plusT => "+"
  | .rbraceT => "\x7d"
  | .rbracketT => "]"
  | .rparenT => ")"
  | .timesT => "*"
  | .equalT => "=="
  | .gteT => ">="
  | .lteT => "<="
  | .notequalT => "!="
  | .ellipsisT => "..."
  | .andT => "and"
  | .elseT => "else"
  | .falseT => "false"
  | .forT => "for"
  | .funcT => "func"
  | .ifT => "if"
  | .inT => "in"
  | .nilT => "nil"
  | .notT => "not"
  | .orT => "or"
  | .returnT => "return"
  | .trueT => "true"
  | .whileT => "while"
  | .intT => "int"
  | .nameT => "name"
  | .strT => "str"

/-- Lower-case hex digit for a value below 16. -/
def hexDigit (n : Nat) : Char :=
  if n < 10 then Char.ofNat (48 + n) else Char.ofNat (87 + n)

/-- Two-digit lower-case hex rendering of a byte (Go %02x). -/
def hexByte (b : Nat) : String :=
  String.mk [hexDigit (b / 16 % 16), hexDigit (b % 16)]

/-- UTF-8 decoding of the first rune of a byte sequence, following Go
utf8.DecodeRune: empty input gives size 0; an invalid encoding
(including bytes out of the leading ranges, bad continuation bytes,
overlong encodings, surrogates and values above U+10FFFF) gives the
replacement rune 0xFFFD with size 1. -/
def decodeRune : Bytes → Int × Nat
  | [] => (0xFFFD, 0)
  | b0 :: rest =>
    if b0 < 0x80 then ((b0 : Int), 1)
    else if b0 < 0xC2 then (0xFFFD, 1)
    else if b0 < 0xE0 then
      match rest with
      | b1 :: _ =>
        if 0x80 ≤ b1 ∧ b1 ≤ 0xBF then
          (((b0 - 0xC0) * 0x40 + (b1 - 0x80) : Nat), 2)
        else (0xFFFD, 1)
      | [] => (0xFFFD, 1)
    else if b0 < 0xF0 then
      match rest with
      | b1 :: b2 :: _ =>
        let lo1 : Nat := if b0 = 0xE0 then 0xA0 else 0x80
        let hi1 : Nat := if b0 = 0xED then 0x9F else 0xBF
        if lo1 ≤ b1 ∧ b1 ≤ hi1 ∧ 0x80 ≤ b2 ∧ b2 ≤ 0xBF then
          (((b0 - 0xE0) * 0x1000 + (b1 - 0x80) * 0x40 + (b2 - 0x80) : Nat), 3)
        else (0xFFFD, 1)
      | _ => (0xFFFD, 1)
    else if b0 ≤ 0xF4 then
      match rest with
      | b1 :: b2 :: b3 :: _ =>
        let lo1 : Nat := if b0 = 0xF0 then 0x90 else 0x80
        let hi1 : Nat := if b0 = 0xF4 then 0x8F else 0xBF
        if lo1 ≤ b1 ∧ b1 ≤ hi1 ∧ 0x80 ≤ b2 ∧ b2 ≤ 0xBF ∧ 0x80 ≤ b3 ∧ b3 ≤ 0xBF then
          (((b0 - 0xF0) * 0x40000 + (b1 - 0x80) * 0x1000 +
            (b2 - 0x80) * 0x40 + (b3 - 0x80) : Nat), 4)
        else (0xFFFD, 1)
      | _ => (0xFFFD, 1)
    else (0xFFFD, 1)

/-- UTF-8 encoding of a single code point (Go string(rune) for a valid
scalar value; invalid values encode the replacement rune). -/
def encodeRune (c : Nat) : Bytes :=
  if c < 0x80 then [c]
  else if c < 0x800 then [0xC0 + c / 0x40, 0x80 + c % 0x40]
  else if c < 0x10000 then
    if 0xD800 ≤ c ∧ c ≤ 0xDFFF then [0xEF, 0xBF, 0xBD]
    else [0xE0 + c / 0x1000, 0x80 + c / 0x40 % 0x40, 0x80 + c % 0x40]
  else if c ≤ 0x10FFFF then
    [0xF0 + c / 0x40000, 0x80 + c / 0x1000 % 0x40,
     0x80 + c / 0x40 % 0x40, 0x80 + c % 0x40]
  else [0xEF, 0xBF, 0xBD]

/-- UTF-8 bytes of a Lean string (Go strings hold UTF-8 bytes). -/
def strBytes (s : String) : Bytes :=
  s.data.flatMap (fun c => encodeRune c.toNat)

/-- Tokenizer state (tokenizer.Tokenizer): input bytes, byte offset,
current code point (-1 at end of input or after an encoding error), a
sticky error message, and the positions of the current and next code
points. -/
structure TokState where
  input : Bytes
  offset : Nat
  ch : Int
  errorMsg : String
  pos : Position
  nextPos : Position
deriving DecidableEq, Repr

/-- One step of the tokenizer: Tokenizer.next().  Sets pos to nextPos,
decodes the rune at the current offset, latches an error on invalid
UTF-8, and otherwise advances offset and nextPos (a newline bumps the
line and resets the column). -/
def tnext (t : TokState) : TokState :=
  let t := { t with pos := t.nextPos }
  let d := decodeRune (t.input.drop t.offset)
  if d.2 = 0 then { t with ch := -1 }
  else if d.1 = 0xFFFD then
    { t with
      ch := -1
      errorMsg := "invalid UTF-8 byte 0x" ++ hexByte ((t.input.drop t.offset).headD 0) }
  else
    let np : Position :=
      if d.1 = 10 then ⟨t.nextPos.line + 1, 1⟩
      else ⟨t.nextPos.line, t.nextPos.column + 1⟩
    { t with
      nextPos := np
      ch := d.1
      offset := t.offset + d.2 }

/-- NewTokenizer: nextPos starts at 1:1 and one step is taken. -/
def newTokenizer (input : Bytes) : TokState :=
  tnext { input := input, offset := 0, ch := 0, errorMsg := "",
          pos := ⟨0, 0⟩, nextPos := ⟨1, 1⟩ }

/-- Inner comment loop of skipWhitespaceAndComments: advance until a
newline or the end of input. -/
def skipLine : Nat → TokState → Option TokState
  | 0, _ => none
  | n + 1, t =>
    if t.ch ≠ 10 ∧ 0 ≤ t.ch then skipLine n (tnext t) else some t

/-- skipWhitespaceAndComments: skip runs of space, tab, carriage return
and newline, then a line comment (two slashes) through the end of the
line, repeatedly. -/
def skipWS : Nat → TokState → Option TokState
  | 0, _ => none
  | n + 1, t =>
    if t.ch = 32 ∨ t.ch = 9 ∨ t.ch = 13 ∨ t.ch = 10 then skipWS n (tnext t)
    else if t.ch = 47 ∧ t.offset < t.input.length ∧ t.input.getD t.offset 0 = 47 then
      match skipLine n (tnext (tnext t)) with
      | none => none
      | some t' => skipWS n (tnext t')
    else some t

/-- Identifier-start test (tokenizer isNameStart). -/
def isNameStartCh (c : Int) : Bool :=
  c = 95 ∨ (97 ≤ c ∧ c ≤ 122) ∨ (65 ≤ c ∧ c ≤ 90)

/-- Decimal digit test on a code point. -/
def isDigitCh (c : Int) : Bool := 48 ≤ c ∧ c ≤ 57

/-- Name/keyword scanning loop: read `[_A-Za-z0-9]*` after the first
code point. -/
def readName : Nat → TokState → List Char → Option (List Char × TokState)
  | 0, _, _ => none
  | n + 1, t, acc =>
    if isNameStartCh t.ch ∨ isDigitCh t.ch then
      readName n (tnext t) (acc ++ [Char.ofNat t.ch.toNat])
    else some (acc, t)

/-- Integer literal scanning loop: read `[0-9]*` after the first digit. -/
def readInt : Nat → TokState → List Char → Option (List Char × TokState)
  | 0, _, _ => none
  | n + 1, t, acc =>
    if isDigitCh t.ch then readInt n (tnext t) (acc ++ [Char.ofNat t.ch.toNat])
    else some (acc, t)

/-- Result of the string-literal scanning loop: either the decoded
string body, or an ILLEGAL lexeme (the error reason). -/
inductive StrScan where
  | okS (val : List Char) (t : TokState)
  | illegalS (msg : String) (t : TokState)
deriving Repr

/-- String literal scanning loop of Next(): decode until the closing
quote, handling the escapes \" \\ \t \r \n, and rejecting raw newlines,
bad escapes and a missing end quote. -/
def readString : Nat → TokState → List Char → Option StrScan
  | 0, _, _ => none
  | n + 1, t, acc =>
    if t.ch = 34 then some (.okS acc (tnext t))
    else if t.ch < 0 then some (.illegalS ("didn\x27t find end quote in string") t)
    else if t.ch = 13 ∨ t.ch = 10 then
      some (.illegalS ("can\x27t have newline in string") t)
    else if t.ch = 92 then
      let t' := tnext t
      if t'.ch = 34 ∨ t'.ch = 92 then
        readString n (tnext t') (acc ++ [Char.ofNat t'.ch.toNat])
      else if t'.ch = 116 then readString n (tnext t') (acc ++ [Char.ofNat 9])
      else if t'.ch = 114 then readString n (tnext t') (acc ++ [Char.ofNat 13])
      else if t'.ch = 110 then readString n (tnext t') (acc ++ [Char.ofNat 10])
      else
        some (.illegalS ("invalid string escape \\" ++
          String.mk [Char.ofNat t'.ch.toNat]) t')
    else readString n (tnext t) (acc ++ [Char.ofNat t.ch.toNat])

/-- The single-character punctuation cases of the Next() switch. -/
def singleCharTok (ch : Int) : Option Tok :=
  if ch = 58 then some .colonT
  else if ch = 44 then some .commaT
  else if ch = 47 then some .divideT
  else if ch = 123 then some .lbraceT
  else if ch = 91 then some .lbracketT
  else if ch = 40 then some .lparenT
  else if ch = 45 then some .minusT
  else if ch = 37 then some .moduloT
  else if ch = 43 then some .plusT
  else if ch = 125 then some .rbraceT
  else if ch = 93 then some .rbracketT
  else if ch = 41 then some .rparenT
  else if ch = 42 then some .timesT
  else none

/-- The big single-code-point switch of Tokenizer.Next().  `pos` is the
position and `ch` the value of the code point that has just been
consumed; `t` is the state after consuming it. -/
def tokSwitch (n : Nat) (pos : Position) (ch : Int) (t : TokState) :
    Option (Position × Tok × String × TokState) :=
  if isNameStartCh ch then
    match readName n t [Char.ofNat ch.toNat] with
    | none => none
    | some (cs, t) =>
      match keywordTok (String.mk cs) with
      | some k => some (pos, k, "", t)
      | none => some (pos, .nameT, String.mk cs, t)
  else
    match singleCharTok ch with
    | some k => some (pos, k, "", t)
    | none =>
      if ch = 61 then
        if t.ch = 61 then some (pos, .equalT, "", tnext t)
        else some (pos, .assignT, "", t)
      else if ch = 33 then
        if t.ch = 61 then some (pos, .notequalT, "", tnext t)
        else some (pos, .illegalT,
          "expected != instead of !" ++ String.mk [Char.ofNat t.ch.toNat], t)
      else if ch = 60 then
        if t.ch = 61 then some (pos, .lteT, "", tnext t)
        else some (pos, .ltT, "", t)
      else if ch = 62 then
        if t.ch = 61 then some (pos, .gteT, "", tnext t)
        else some (pos, .gtT, "", t)
      else if ch = 46 then
        if t.ch = 46 then
          if (tnext t).ch ≠ 46 then some (pos, .illegalT, "unexpected ..", tnext t)
          else some (pos, .ellipsisT, "", tnext (tnext t))
        else some (pos, .dotT, "", t)
      else if isDigitCh ch then
        match readInt n t [Char.ofNat ch.toNat] with
        | none => none
        | some (cs, t) => some (pos, .intT, String.mk cs, t)
      else if ch = 34 then
        match readString n t [] with
        | none => none
        | some (.okS cs t) => some (pos, .strT, String.mk cs, t)
        | some (.illegalS msg t) => some (pos, .illegalT, msg, t)
      else
        some (pos, .illegalT,
          "unexpected " ++ String.mk [Char.ofNat ch.toNat], t)

/-- Tokenizer.Next(): position, token kind, token value and the
tokenizer state after the call.  `none` means the fuel ran out. -/
def tokNext (n : Nat) (t : TokState) : Option (Position × Tok × String × TokState) :=
  match skipWS n t with
  | none => none
  | some t =>
    if t.ch < 0 then
      if t.errorMsg ≠ "" then some (t.pos, .illegalT, t.errorMsg, t)
      else some (t.pos, .eofT, "", t)
    else
      tokSwitch n t.pos t.ch (tnext t)

end LL

namespace LL

/-! ### Position monotonicity of the tokenizer (claim C9) -/

/-- Tokenizer state invariant: the current position never exceeds the
position of the next code point. -/
def TokInv (t : TokState) : Prop := posLe t.pos t.nextPos

theorem tnext_pos_eq (t : TokState) : (tnext t).pos = t.nextPos := by
  unfold tnext
  dsimp only
  split
  · rfl
  · split
    · rfl
    · rfl

theorem tnext_nextPos_le (t : TokState) : posLe t.nextPos (tnext t).nextPos := by
  unfold tnext
  dsimp only
  split
  · exact posLe_refl _
  · split
    · exact posLe_refl _
    · split
      · exact Or.inl (Nat.lt_succ_self _)
      · exact Or.inr ⟨rfl, Nat.le_succ _⟩

/-- Progress relation used to chain tokenizer steps: assuming the
invariant at the start, the invariant holds at the end and both
tracked positions move forward. -/
def TAdv (t t' : TokState) : Prop :=
  TokInv t → TokInv t' ∧ posLe t.pos t'.pos ∧ posLe t.nextPos t'.nextPos

theorem TAdv_refl (t : TokState) : TAdv t t :=
  fun h => ⟨h, posLe_refl _, posLe_refl _⟩

theorem TAdv_trans {t₁ t₂ t₃ : TokState} (h₁ : TAdv t₁ t₂) (h₂ : TAdv t₂ t₃) :
    TAdv t₁ t₃ := by
  intro hi
  obtain ⟨i₂, p₂, n₂⟩ := h₁ hi
  obtain ⟨i₃, p₃, n₃⟩ := h₂ i₂
  exact ⟨i₃, posLe_trans p₂ p₃, posLe_trans n₂ n₃⟩

theorem TAdv_tnext (t : TokState) : TAdv t (tnext t) := by
  intro hi
  have hp := tnext_pos_eq t
  have hn := tnext_nextPos_le t
  refine ⟨?_, ?_, hn⟩
  · unfold TokInv
    rw [hp]
    exact hn
  · rw [hp]
    exact hi

theorem skipLine_adv {n : Nat} {t t' : TokState} (h : skipLine n t = some t') :
    TAdv t t' := by
  induction n generalizing t with
  | zero => simp [skipLine] at h
  | succ n ih =>
    unfold skipLine at h
    split at h
    · exact TAdv_trans (TAdv_tnext t) (ih h)
    · cases h
      exact TAdv_refl t'

theorem skipWS_adv {n : Nat} {t t' : TokState} (h : skipWS n t = some t') :
    TAdv t t' := by
  induction n generalizing t with
  | zero => simp [skipWS] at h
  | succ n ih =>
    unfold skipWS at h
    split at h
    · exact TAdv_trans (TAdv_tnext t) (ih h)
    · split at h
      · rename_i h1 h2
        cases h3 : skipLine n (tnext (tnext t)) with
        | none => rw [h3] at h; cases h
        | some tm =>
          rw [h3] at h
          have a1 : TAdv t (tnext (tnext t)) :=
            TAdv_trans (TAdv_tnext t) (TAdv_tnext (tnext t))
          exact TAdv_trans (TAdv_trans a1 (skipLine_adv h3))
            (TAdv_trans (TAdv_tnext tm) (ih h))
      · cases h
        exact TAdv_refl t'

theorem readName_adv {n : Nat} {t t' : TokState} {acc cs : List Char}
    (h : readName n t acc = some (cs, t')) : TAdv t t' := by
  induction n generalizing t acc with
  | zero => simp [readName] at h
  | succ n ih =>
    unfold readName at h
    split at h
    · exact TAdv_trans (TAdv_tnext t) (ih h)
    · cases h
      exact TAdv_refl t'

theorem readInt_adv {n : Nat} {t t' : TokState} {acc cs : List Char}
    (h : readInt n t acc = some (cs, t')) : TAdv t t' := by
  induction n generalizing t acc with
  | zero => simp [readInt] at h
  | succ n ih =>
    unfold readInt at h
    split at h
    · exact TAdv_trans (TAdv_tnext t) (ih h)
    · cases h
      exact TAdv_refl t'

/-- The end state embedded in a string-scan result. -/
def StrScan.state : StrScan → TokState
  | .okS _ t => t
  | .illegalS _ t => t

theorem readString_adv {n : Nat} {t : TokState} {acc : List Char} {r : StrScan}
    (h : readString n t acc = some r) : TAdv t r.state := by
  induction n generalizing t acc with
  | zero => simp [readString] at h
  | succ n ih =>
    unfold readString at h
    split at h
    · cases h
      exact TAdv_tnext t
    · split at h
      · cases h
        exact TAdv_refl t
      · split at h
        · cases h
          exact TAdv_refl t
        · dsimp only at h
          split at h
          · split at h
            · exact TAdv_trans (TAdv_tnext t) (TAdv_trans (TAdv_tnext (tnext t)) (ih h))
            · split at h
              · exact TAdv_trans (TAdv_tnext t) (TAdv_trans (TAdv_tnext (tnext t)) (ih h))
              · split at h
                · exact TAdv_trans (TAdv_tnext t) (TAdv_trans (TAdv_tnext (tnext t)) (ih h))
                · split at h
                  · exact TAdv_trans (TAdv_tnext t) (TAdv_trans (TAdv_tnext (tnext t)) (ih h))
                  · cases h
                    exact TAdv_tnext t
          · exact TAdv_trans (TAdv_tnext t) (ih h)

theorem readString_adv_ok {n : Nat} {t : TokState} {acc cs : List Char}
    {t' : TokState} (h : readString n t acc = some (.okS cs t')) :
    TAdv t t' := readString_adv h

theorem readString_adv_ill {n : Nat} {t : TokState} {acc : List Char}
    {m : String} {t' : TokState}
    (h : readString n t acc = some (.illegalS m t')) :
    TAdv t t' := readString_adv h

end LL

namespace LL

theorem conclude {t t₁ t' : TokState} {p : Position}
    (a₁ : TAdv t t₁) (a₂ : TAdv t₁ t') (hp : p = t₁.pos) :
    TokInv t → TokInv t' ∧ posLe t.pos p ∧ posLe p t'.pos := by
  intro hi
  obtain ⟨i₁, p₁, _⟩ := a₁ hi
  obtain ⟨i₂, p₂, _⟩ := a₂ i₁
  exact ⟨i₂, hp ▸ p₁, hp ▸ p₂⟩

/-- Each branch of the Next() switch returns the supplied token
position and only advances the tokenizer state. -/
theorem tokSwitch_adv {n : Nat} {pos : Position} {ch : Int} {t : TokState}
    {p : Position} {k : Tok} {v : String} {t' : TokState}
    (h : tokSwitch n pos ch t = some (p, k, v, t')) :
    p = pos ∧ TAdv t t' := by
  unfold tokSwitch at h
  repeat' split at h
  all_goals cases h
  all_goals first
    | exact ⟨rfl, TAdv_refl _⟩
    | exact ⟨rfl, TAdv_tnext _⟩
    | exact ⟨rfl, TAdv_trans (TAdv_tnext _) (TAdv_tnext _)⟩
    | exact ⟨rfl, readName_adv (by assumption)⟩
    | exact ⟨rfl, readInt_adv (by assumption)⟩
    | exact ⟨rfl, readString_adv_ok (by assumption)⟩
    | exact ⟨rfl, readString_adv_ill (by assumption)⟩

/-- Each successful Next() call starts at or after the previous current
position, returns a token position between the entry position and the
exit position, and preserves the tokenizer invariant. -/
theorem tokNext_adv {n : Nat} {t : TokState} {p : Position} {k : Tok}
    {v : String} {t' : TokState}
    (h : tokNext n t = some (p, k, v, t')) :
    TokInv t → TokInv t' ∧ posLe t.pos p ∧ posLe p t'.pos := by
  unfold tokNext at h
  cases h₁ : skipWS n t with
  | none => rw [h₁] at h; cases h
  | some t₁ =>
    rw [h₁] at h
    have a₁ : TAdv t t₁ := skipWS_adv h₁
    dsimp only at h
    split at h
    · split at h
      · cases h
        exact conclude a₁ (TAdv_refl _) rfl
      · cases h
        exact conclude a₁ (TAdv_refl _) rfl
    · obtain ⟨hp, a₂⟩ := tokSwitch_adv h
      exact conclude a₁ (TAdv_trans (TAdv_tnext _) a₂) hp

theorem newTokenizer_inv (input : Bytes) : TokInv (newTokenizer input) := by
  have h : TokInv ⟨input, 0, 0, "", ⟨0, 0⟩, ⟨1, 1⟩⟩ := Or.inl Nat.zero_lt_one
  obtain ⟨hi, _, _⟩ := TAdv_tnext ⟨input, 0, 0, "", ⟨0, 0⟩, ⟨1, 1⟩⟩ h
  exact hi

/-- The result of the (i+1)-st call to Next() on a fresh tokenizer. -/
def tokNextIter (fuel : Nat) (t : TokState) : Nat → Option (Position × Tok × String × TokState)
  | 0 => tokNext fuel t
  | i + 1 =>
    match tokNextIter fuel t i with
    | some (_, _, _, t') => tokNext fuel t'
    | none => none

theorem tokNextIter_adv {fuel i : Nat} {t : TokState} {p : Position} {k : Tok}
    {v : String} {t' : TokState}
    (h : tokNextIter fuel t i = some (p, k, v, t')) (hi : TokInv t) :
    TokInv t' ∧ posLe p t'.pos := by
  induction i generalizing p k v t' with
  | zero =>
    obtain ⟨a, _, b⟩ := tokNext_adv h hi
    exact ⟨a, b⟩
  | succ i ih =>
    unfold tokNextIter at h
    cases h₂ : tokNextIter fuel t i with
    | none => rw [h₂] at h; cases h
    | some r =>
      obtain ⟨q, k₀, v₀, t₀⟩ := r
      rw [h₂] at h
      obtain ⟨inv₀, _⟩ := ih h₂
      obtain ⟨a, _, b⟩ := tokNext_adv h inv₀
      exact ⟨a, b⟩

end LL

namespace LL

/-- C9: for every input byte sequence and every pair of successive
calls to the tokenizer Next() (the (i+1)-st and (i+2)-nd calls on a
fresh tokenizer over that input), the position of the second returned
token is greater than or equal to the position of the first under
(line, column) lexicographic order. -/
theorem claim_C9_position_monotonicity (input : Bytes) (fuel fuel' i : Nat)
    {p₁ : Position} {k₁ : Tok} {v₁ : String} {t₁ : TokState}
    {p₂ : Position} {k₂ : Tok} {v₂ : String} {t₂ : TokState}
    (h₁ : tokNextIter fuel (newTokenizer input) i = some (p₁, k₁, v₁, t₁))
    (h₂ : tokNext fuel' t₁ = some (p₂, k₂, v₂, t₂)) :
    posLe p₁ p₂ := by
  obtain ⟨inv₁, hle⟩ := tokNextIter_adv h₁ (newTokenizer_inv input)
  obtain ⟨_, h₂a, _⟩ := tokNext_adv h₂ inv₁
  exact posLe_trans hle h₂a

theorem claim_C9_witness : posLe ⟨1, 1⟩ ⟨1, 3⟩ :=
  claim_C9_position_monotonicity (strBytes "a b") 99 99 0 rfl rfl

end LL

namespace LL

/-! ### AST and parser -/

/-- Literal values (parser Literal): nil, bool, 64-bit int, string. -/
inductive LitVal where
  | nilL
  | boolL (b : Bool)
  | intL (n : Int)
  | strL (s : Bytes)
deriving DecidableEq, Repr

mutual
/-- Expressions (parser expression nodes). -/
inductive Expr where
  | binary (pos : Position) (left : Expr) (op : Tok) (right : Expr)
  | unary (pos : Position) (op : Tok) (operand : Expr)
  | call (pos : Position) (fn : Expr) (args : List Expr) (ellipsis : Bool)
  | lit (pos : Position) (v : LitVal)
  | varE (pos : Position) (name : String)
  | listE (pos : Position) (vals : List Expr)
  | mapE (pos : Position) (items : List (Expr × Expr))
  | funcE (pos : Position) (params : List String) (ellipsis : Bool)
      (body : List Stmt)
  | subscript (pos : Position) (container : Expr) (sub : Expr)
deriving Repr

/-- Statements (parser statement nodes); a block is a `List Stmt`. -/
inductive Stmt where
  | assign (pos : Position) (target : Expr) (value : Expr)
  | ifS (pos : Position) (cond : Expr) (body : List Stmt) (elseB : List Stmt)
  | whileS (pos : Position) (cond : Expr) (body : List Stmt)
  | forS (pos : Position) (name : String) (iter : Expr) (body : List Stmt)
  | exprS (pos : Position) (e : Expr)
  | funcDef (pos : Position) (name : String) (params : List String)
      (ellipsis : Bool) (body : List Stmt)
  | retS (pos : Position) (result : Expr)
deriving Repr
end

/-- strconv.Atoi on the bytes of a decimal string: optional sign, one
or more digits, signed 64-bit range; anything else is an error
(`none`), including overflow. -/
def goAtoiBytes (s : Bytes) : Option Int :=
  match s with
  | [] => none
  | b :: rest =>
    let signed : Bool × Bytes :=
      if b = 45 then (true, rest) else if b = 43 then (false, rest) else (false, s)
    match signed.2 with
    | [] => none
    | ds =>
      match ds.foldl
        (fun acc d =>
          match acc with
          | none => none
          | some a => if 48 ≤ d ∧ d ≤ 57 then some (a * 10 + (d - 48)) else none)
        (some 0) with
      | none => none
      | some v =>
        if signed.1 then
          if v ≤ 2 ^ 63 then some (-(v : Int)) else none
        else
          if v ≤ 2 ^ 63 - 1 then some ((v : Int)) else none

/-- strconv.Atoi applied to a Lean string. -/
def goAtoi (s : String) : Option Int := goAtoiBytes (strBytes s)

/-- Parser state (parser struct): the tokenizer plus one token of
lookahead (position, kind, value). -/
structure PState where
  ts : TokState
  pos : Position
  tok : Tok
  val : String
deriving Repr

/-- Parser result: success with a value and the new state, a parse
error (panic with a parser.Error, caught by ParseProgram), a panic with
any other value (re-raised by ParseProgram), or fuel exhaustion. -/
inductive PRes (α : Type) where
  | ok (a : α) (st : PState)
  | errR (pos : Position) (msg : String)
  | panicR (msg : String)
  | out
deriving Repr

/-- parser.next(): pull one token; an ILLEGAL token raises a parse
error carrying the tokenizer message at the token position. -/
def pnext (fuel : Nat) (p : PState) : PRes PState :=
  match tokNext fuel p.ts with
  | none => .out
  | some (pos, tok, val, ts') =>
    if tok = .illegalT then .errR pos val
    else .ok ⟨ts', pos, tok, val⟩ ⟨ts', pos, tok, val⟩

/-- parser.expect(tok): error if the lookahead differs, else advance. -/
def pexpect (fuel : Nat) (p : PState) (tok : Tok) : PRes PState :=
  if p.tok ≠ tok then
    .errR p.pos ("expected " ++ tokName tok ++ " and not " ++ tokName p.tok)
  else pnext fuel p

/-- Parser task: one constructor per parser function of the source,
plus explicit loop tasks for the source's in-function loops. -/
inductive PTask where
  | program
  | statements (endT : Tok)
  | statement
  | blockT
  | ifStmt
  | whileStmt
  | forStmt
  | returnStmt
  | funcStmt
  | params
  | paramsLoop (ps : List String) (gotComma gotEllipsis : Bool)
  | expression
  | andTask
  | notTask
  | equality
  | comparison
  | addition
  | multiply
  | negative
  | callTask
  | callLoop (e : Expr)
  | argsLoop (fn : Expr) (cpos : Position) (args : List Expr)
      (gotComma gotEllipsis : Bool)
  | primary
  | listTask
  | listLoop (lpos : Position) (vals : List Expr) (gotComma : Bool)
  | mapTask
  | mapLoop (lpos : Position) (items : List (Expr × Expr)) (gotComma : Bool)
  | binOp (sub : PTask) (ops : List Tok)
  | binLoop (sub : PTask) (ops : List Tok) (acc : Expr)

/-- Parser task results. -/
inductive POut where
  | exprO (e : Expr)
  | stmtO (s : Stmt)
  | stmtsO (b : List Stmt)
  | paramsO (ps : List String) (ellipsis : Bool)
  | progO (b : List Stmt)
deriving Repr

end LL

namespace LL

/-- Propagate parser failure through a state-passing step. -/
def bindSt {β : Type} (r : PRes PState) (f : PState → PRes β) : PRes β :=
  match r with
  | .ok _ st => f st
  | .errR p m => .errR p m
  | .panicR m => .panicR m
  | .out => .out

/-- Propagate parser failure through an expression-producing step. -/
def bindE (r : PRes POut) (f : Expr → PState → PRes POut) : PRes POut :=
  match r with
  | .ok (.exprO e) st => f e st
  | .ok _ _ => .panicR ("internal: expected expression result")
  | .errR p m => .errR p m
  | .panicR m => .panicR m
  | .out => .out

/-- Propagate parser failure through a statement-producing step. -/
def bindS (r : PRes POut) (f : Stmt → PState → PRes POut) : PRes POut :=
  match r with
  | .ok (.stmtO s) st => f s st
  | .ok _ _ => .panicR ("internal: expected statement result")
  | .errR p m => .errR p m
  | .panicR m => .panicR m
  | .out => .out

/-- Propagate parser failure through a block-producing step. -/
def bindB (r : PRes POut) (f : List Stmt → PState → PRes POut) : PRes POut :=
  match r with
  | .ok (.stmtsO b) st => f b st
  | .ok _ _ => .panicR ("internal: expected block result")
  | .errR p m => .errR p m
  | .panicR m => .panicR m
  | .out => .out

/-- Propagate parser failure through a parameter-list step. -/
def bindP (r : PRes POut) (f : List String → Bool → PState → PRes POut) : PRes POut :=
  match r with
  | .ok (.paramsO ps ell) st => f ps ell st
  | .ok _ _ => .panicR ("internal: expected params result")
  | .errR p m => .errR p m
  | .panicR m => .panicR m
  | .out => .out

/-- The recursive-descent parser, one task per source parser function.
All recursion is on the fuel. -/
def parse : Nat → PTask → PState → PRes POut
  | 0, _, _ => .out
  | n + 1, task, p =>
    match task with
    | .program =>
      bindB (parse n (.statements .eofT) p) fun b st => .ok (.progO b) st
    | .statements endT =>
      if p.tok ≠ endT ∧ p.tok ≠ .eofT then
        bindS (parse n .statement p) fun s st =>
        bindB (parse n (.statements endT) st) fun rest st₂ =>
        .ok (.stmtsO (s :: rest)) st₂
      else .ok (.stmtsO []) p
    | .statement =>
      match p.tok with
      | .ifT => parse n .ifStmt p
      | .whileT => parse n .whileStmt p
      | .forT => parse n .forStmt p
      | .returnT => parse n .returnStmt p
      | .funcT => parse n .funcStmt p
      | _ =>
        bindE (parse n .expression p) fun e st =>
        if st.tok = .assignT then
          match e with
          | .varE vp vn =>
            bindSt (pnext n st) fun st₂ =>
            bindE (parse n .expression st₂) fun v st₃ =>
            .ok (.stmtO (.assign st.pos (.varE vp vn) v)) st₃
          | .subscript sp c sub =>
            bindSt (pnext n st) fun st₂ =>
            bindE (parse n .expression st₂) fun v st₃ =>
            .ok (.stmtO (.assign st.pos (.subscript sp c sub) v)) st₃
          | _ =>
            .errR st.pos
              ("expected name, subscript, or dot expression on left side of =")
        else .ok (.stmtO (.exprS p.pos e)) st
    | .blockT =>
      bindSt (pexpect n p .lbraceT) fun st =>
      bindB (parse n (.statements .rbraceT) st) fun b st₂ =>
      bindSt (pexpect n st₂ .rbraceT) fun st₃ =>
      .ok (.stmtsO b) st₃
    | .ifStmt =>
      bindSt (pexpect n p .ifT) fun st =>
      bindE (parse n .expression st) fun cond st₂ =>
      bindB (parse n .blockT st₂) fun body st₃ =>
      if st₃.tok = .elseT then
        bindSt (pnext n st₃) fun st₄ =>
        if st₄.tok = .lbraceT then
          bindB (parse n .blockT st₄) fun els st₅ =>
          .ok (.stmtO (.ifS p.pos cond body els)) st₅
        else if st₄.tok = .ifT then
          bindS (parse n .ifStmt st₄) fun s st₅ =>
          .ok (.stmtO (.ifS p.pos cond body [s])) st₅
        else
          .errR st₄.pos ("expected \x7b or if after else, not " ++ tokName st₄.tok)
      else .ok (.stmtO (.ifS p.pos cond body [])) st₃
    | .whileStmt =>
      bindSt (pexpect n p .whileT) fun st =>
      bindE (parse n .expression st) fun cond st₂ =>
      bindB (parse n .blockT st₂) fun body st₃ =>
      .ok (.stmtO (.whileS p.pos cond body)) st₃
    | .forStmt =>
      bindSt (pexpect n p .forT) fun st =>
      bindSt (pexpect n st .nameT) fun st₂ =>
      bindSt (pexpect n st₂ .inT) fun st₃ =>
      bindE (parse n .expression st₃) fun it st₄ =>
      bindB (parse n .blockT st₄) fun body st₅ =>
      .ok (.stmtO (.forS p.pos st.val it body)) st₅
    | .returnStmt =>
      bindSt (pexpect n p .returnT) fun st =>
      bindE (parse n .expression st) fun e st₂ =>
      .ok (.stmtO (.retS p.pos e)) st₂
    | .funcStmt =>
      bindSt (pexpect n p .funcT) fun st =>
      if st.tok = .nameT then
        bindSt (pnext n st) fun st₂ =>
        bindP (parse n .params st₂) fun ps ell st₃ =>
        bindB (parse n .blockT st₃) fun body st₄ =>
        .ok (.stmtO (.funcDef p.pos st.val ps ell body)) st₄
      else
        bindP (parse n .params st) fun ps ell st₂ =>
        bindB (parse n .blockT st₂) fun body st₃ =>
        .ok (.stmtO (.exprS p.pos (.funcE p.pos ps ell body))) st₃
    | .params =>
      bindSt (pexpect n p .lparenT) fun st =>
      parse n (.paramsLoop [] true false) st
    | .paramsLoop ps gc ge =>
      if p.tok ≠ .rparenT ∧ p.tok ≠ .eofT ∧ ¬ge then
        if ¬gc then .errR p.pos ("expected , between parameters")
        else
          bindSt (pexpect n p .nameT) fun st =>
          if st.tok = .ellipsisT then
            bindSt (pnext n st) fun st₂ =>
            if st₂.tok = .commaT then
              bindSt (pnext n st₂) fun st₃ =>
              parse n (.paramsLoop (ps ++ [p.val]) true true) st₃
            else parse n (.paramsLoop (ps ++ [p.val]) false true) st₂
          else if st.tok = .commaT then
            bindSt (pnext n st) fun st₂ =>
            parse n (.paramsLoop (ps ++ [p.val]) true false) st₂
          else parse n (.paramsLoop (ps ++ [p.val]) false false) st
      else
        if p.tok ≠ .rparenT ∧ ge then
          .errR p.pos ("can only have ... after last parameter")
        else
          bindSt (pexpect n p .rparenT) fun st =>
          .ok (.paramsO ps ge) st
    | .expression => parse n (.binOp .andTask [.orT]) p
    | .andTask => parse n (.binOp .notTask [.andT]) p
    | .notTask =>
      if p.tok = .notT then
        bindSt (pnext n p) fun st =>
        bindE (parse n .notTask st) fun e st₂ =>
        .ok (.exprO (.unary p.pos .notT e)) st₂
      else parse n .equality p
    | .equality => parse n (.binOp .comparison [.equalT, .notequalT]) p
    | .comparison =>
      parse n (.binOp .addition [.ltT, .lteT, .gtT, .gteT, .inT]) p
    | .addition => parse n (.binOp .multiply [.plusT, .minusT]) p
    | .multiply =>
      parse n (.binOp .negative [.timesT, .divideT, .moduloT]) p
    | .negative =>
      if p.tok = .minusT then
        bindSt (pnext n p) fun st =>
        bindE (parse n .negative st) fun e st₂ =>
        .ok (.exprO (.unary p.pos .minusT e)) st₂
      else parse n .callTask p
    | .binOp sub ops =>
      bindE (parse n sub p) fun e st => parse n (.binLoop sub ops e) st
    | .binLoop sub ops acc =>
      if ops.contains p.tok then
        bindSt (pnext n p) fun st =>
        bindE (parse n sub st) fun right st₂ =>
        parse n (.binLoop sub ops (.binary p.pos acc p.tok right)) st₂
      else .ok (.exprO acc) p
    | .callTask =>
      bindE (parse n .primary p) fun e st => parse n (.callLoop e) st
    | .callLoop e =>
      if p.tok = .lparenT then
        bindSt (pnext n p) fun st =>
        parse n (.argsLoop e p.pos [] true false) st
      else if p.tok = .lbracketT then
        bindSt (pnext n p) fun st =>
        bindE (parse n .expression st) fun sub st₂ =>
        bindSt (pexpect n st₂ .rbracketT) fun st₃ =>
        parse n (.callLoop (.subscript p.pos e sub)) st₃
      else if p.tok = .dotT then
        bindSt (pnext n p) fun st =>
        bindSt (pexpect n st .nameT) fun st₂ =>
        parse n
          (.callLoop (.subscript p.pos e (.lit st.pos (.strL (strBytes st.val))))) st₂
      else .ok (.exprO e) p
    | .argsLoop fn cpos args gc ge =>
      if p.tok ≠ .rparenT ∧ p.tok ≠ .eofT ∧ ¬ge then
        if ¬gc then .errR p.pos ("expected , between arguments")
        else
          bindE (parse n .expression p) fun a st =>
          if st.tok = .ellipsisT then
            bindSt (pnext n st) fun st₂ =>
            if st₂.tok = .commaT then
              bindSt (pnext n st₂) fun st₃ =>
              parse n (.argsLoop fn cpos (args ++ [a]) true true) st₃
            else parse n (.argsLoop fn cpos (args ++ [a]) false true) st₂
          else if st.tok = .commaT then
            bindSt (pnext n st) fun st₂ =>
            parse n (.argsLoop fn cpos (args ++ [a]) true false) st₂
          else parse n (.argsLoop fn cpos (args ++ [a]) false false) st
      else
        if p.tok ≠ .rparenT ∧ ge then
          .errR p.pos ("can only have ... after last argument")
        else
          bindSt (pexpect n p .rparenT) fun st =>
          parse n (.callLoop (.call cpos fn args ge)) st
    | .primary =>
      match p.tok with
      | .nameT =>
        bindSt (pnext n p) fun st => .ok (.exprO (.varE p.pos p.val)) st
      | .intT =>
        bindSt (pnext n p) fun st =>
        match goAtoi p.val with
        | some k => .ok (.exprO (.lit p.pos (.intL k))) st
        | none =>
          .panicR ("tokenizer gave INT token that isn\x27t an int: " ++ p.val)
      | .strT =>
        bindSt (pnext n p) fun st =>
        .ok (.exprO (.lit p.pos (.strL (strBytes p.val)))) st
      | .trueT =>
        bindSt (pnext n p) fun st => .ok (.exprO (.lit p.pos (.boolL true))) st
      | .falseT =>
        bindSt (pnext n p) fun st => .ok (.exprO (.lit p.pos (.boolL false))) st
      | .nilT =>
        bindSt (pnext n p) fun st => .ok (.exprO (.lit p.pos .nilL)) st
      | .lbracketT => parse n .listTask p
      | .lbraceT => parse n .mapTask p
      | .funcT =>
        bindSt (pnext n p) fun st =>
        bindP (parse n .params st) fun ps ell st₂ =>
        bindB (parse n .blockT st₂) fun body st₃ =>
        .ok (.exprO (.funcE p.pos ps ell body)) st₃
      | .lparenT =>
        bindSt (pnext n p) fun st =>
        bindE (parse n .expression st) fun e st₂ =>
        bindSt (pexpect n st₂ .rparenT) fun st₃ =>
        .ok (.exprO e) st₃
      | _ => .errR p.pos ("expected expression, not " ++ tokName p.tok)
    | .listTask =>
      bindSt (pexpect n p .lbracketT) fun st =>
      parse n (.listLoop p.pos [] true) st
    | .listLoop lpos vals gc =>
      if p.tok ≠ .rbracketT ∧ p.tok ≠ .eofT then
        if ¬gc then .errR p.pos ("expected , between list elements")
        else
          bindE (parse n .expression p) fun v st =>
          if st.tok = .commaT then
            bindSt (pnext n st) fun st₂ =>
            parse n (.listLoop lpos (vals ++ [v]) true) st₂
          else parse n (.listLoop lpos (vals ++ [v]) false) st
      else
        bindSt (pexpect n p .rbracketT) fun st =>
        .ok (.exprO (.listE lpos vals)) st
    | .mapTask =>
      bindSt (pexpect n p .lbraceT) fun st =>
      parse n (.mapLoop p.pos [] true) st
    | .mapLoop lpos items gc =>
      if p.tok ≠ .rbraceT ∧ p.tok ≠ .eofT then
        if ¬gc then .errR p.pos ("expected , between map items")
        else
          bindE (parse n .expression p) fun kx st =>
          bindSt (pexpect n st .colonT) fun st₂ =>
          bindE (parse n .expression st₂) fun vx st₃ =>
          if st₃.tok = .commaT then
            bindSt (pnext n st₃) fun st₄ =>
            parse n (.mapLoop lpos (items ++ [(kx, vx)]) true) st₄
          else parse n (.mapLoop lpos (items ++ [(kx, vx)]) false) st₃
      else
        bindSt (pexpect n p .rbraceT) fun st =>
        .ok (.exprO (.mapE lpos items)) st

/-- Overall result of ParseProgram. -/
inductive ParseOut where
  | okP (prog : List Stmt)
  | errP (pos : Position) (msg : String)
  | panicP (msg : String)
  | outP
deriving Repr

/-- parser.ParseProgram: make a tokenizer, pull the first token, parse
a program.  A parser.Error panic is returned as `errP`; any other panic
is re-raised by the recover block (`panicP`). -/
def parseProgram (fuel : Nat) (input : Bytes) : ParseOut :=
  match pnext fuel ⟨newTokenizer input, ⟨0, 0⟩, .illegalT, ""⟩ with
  | .out => .outP
  | .errR pos msg => .errP pos msg
  | .panicR msg => .panicP msg
  | .ok _ st =>
    match parse fuel .program st with
    | .ok (.progO b) _ => .okP b
    | .ok _ _ => .panicP ("internal: expected program result")
    | .errR pos msg => .errP pos msg
    | .panicR msg => .panicP msg
    | .out => .outP

end LL

namespace LL

/-- C3 (code bug): for the program `9223372036854775808` (an integer
literal one past the signed 64-bit maximum), the tokenizer emits a
well-formed INT token (never ILLEGAL), but strconv.Atoi fails on the
lexeme, so the parser hits its internal panic (a plain string, not a
parser.Error).  ParseProgram's recover re-raises that panic instead of
returning a ParseError, contradicting the claim that overflow yields a
parse error. -/
theorem claim_C3_overflow_panics :
    (tokNext 99 (newTokenizer (strBytes "9223372036854775808"))).map
        (fun r => (r.1, r.2.1, r.2.2.1)) =
      some (⟨1, 1⟩, Tok.intT, "9223372036854775808") ∧
    goAtoi "9223372036854775808" = none ∧
    parseProgram 99 (strBytes "9223372036854775808") =
      .panicP ("tokenizer gave INT token that isn\x27t an int: 9223372036854775808") :=
  ⟨rfl, rfl, rfl⟩

end LL

namespace LL

/-! ### Runtime values, heaps and interpreter state

Lists, maps and function objects have reference semantics in the Go
source (`*[]Value`, `map[string]Value`, `*userFunction`), so values
carry addresses into per-kind heaps held in the interpreter state.
Scopes are `map[string]Value` objects shared by reference (closures
capture the scope object itself), so they live in a heap as well.  The
scope stack `scopes` holds scope addresses with the top of the stack at
the head (the Go slice appends at the end; only the orientation
differs). -/

/-- Runtime value (interpreter.Value). -/
inductive Val where
  | nilV
  | boolV (b : Bool)
  | intV (n : Int)
  | strV (s : Bytes)
  | listV (a : Nat)
  | mapV (a : Nat)
  | funcV (a : Nat)
deriving DecidableEq, Repr

/-- A scope object: association list, later inserts overwrite. -/
abbrev Scope := List (String × Val)

/-- A map object: association list with byte-string keys. -/
abbrev MapObj := List (Bytes × Val)

/-- Insert-or-overwrite into an association list (Go map assignment). -/
def alInsert {κ : Type} [DecidableEq κ] (sc : List (κ × Val)) (k : κ) (v : Val) :
    List (κ × Val) :=
  if sc.any (fun p => p.1 = k) then
    sc.map (fun p => if p.1 = k then (k, v) else p)
  else sc ++ [(k, v)]

/-- Lookup in an association list (Go map read). -/
def alLookup {κ : Type} [DecidableEq κ] (sc : List (κ × Val)) (k : κ) : Option Val :=
  (sc.find? (fun p => p.1 = k)).map (fun p => p.2)

/-- User function object (interpreter.userFunction): the closure is the
address of the captured scope object. -/
structure FuncUser where
  name : String
  params : List String
  ellipsis : Bool
  body : List Stmt
  closure : Nat
deriving Repr

/-- The built-in functions bound in the global scope.  The source also
registers `sort`, whose key-function variant calls back into the
evaluator; it is left out of this embedding (none of the verified
claims involve it). -/
inductive BuiltinId where
  | appendB | argsB | charB | exitB | findB | intB | joinB | lenB
  | lowerB | printB | rangeB | readB | runeB | sliceB | splitB
  | strB | typeB | upperB
deriving DecidableEq, Repr

/-- Name of a built-in (builtinFunction.Name). -/
def builtinName : BuiltinId → String
  | .appendB => "append"
  | .argsB => "args"
  | .charB => "char"
  | .exitB => "exit"
  | .findB => "find"
  | .intB => "int"
  | .joinB => "join"
  | .lenB => "len"
  | .lowerB => "lower"
  | .printB => "print"
  | .rangeB => "range"
  | .readB => "read"
  | .runeB => "rune"
  | .sliceB => "slice"
  | .splitB => "split"
  | .strB => "str"
  | .typeB => "type"
  | .upperB => "upper"

/-- A function object: user function or built-in. -/
inductive FuncObj where
  | user (f : FuncUser)
  | builtin (b : BuiltinId)
deriving Repr

/-- Interpreter statistics (interpreter.Stats). -/
structure Stats where
  ops : Nat
  userCalls : Nat
  builtinCalls : Nat
deriving DecidableEq, Repr

/-- Interpreter state: the scope stack (head = top), the four heaps,
the print output (one entry per print call), host stdin/files/exit
bookkeeping, the program arguments and the statistics. -/
structure InterpState where
  scopes : List Nat
  scopeHeap : List Scope
  listHeap : List (List Val)
  mapHeap : List MapObj
  funcHeap : List FuncObj
  output : List Bytes
  stdinData : Bytes
  files : List (Bytes × Bytes)
  exitCalls : List Int
  progArgs : List Bytes
  stats : Stats
deriving Repr

/-- Interpreter error values (interpreter.Error implementations). -/
inductive Err where
  | typeErr (pos : Position) (msg : String)
  | valueErr (pos : Position) (msg : String)
  | nameErr (pos : Position) (msg : String)
  | runtimeErr (pos : Position) (msg : String)
deriving DecidableEq, Repr

def getScopeAt (st : InterpState) (a : Nat) : Scope := st.scopeHeap.getD a []

def setScopeAt (st : InterpState) (a : Nat) (sc : Scope) : InterpState :=
  { st with scopeHeap := st.scopeHeap.set a sc }

def allocScope (st : InterpState) (sc : Scope) : Nat × InterpState :=
  (st.scopeHeap.length, { st with scopeHeap := st.scopeHeap ++ [sc] })

def getListAt (st : InterpState) (a : Nat) : List Val := st.listHeap.getD a []

def setListAt (st : InterpState) (a : Nat) (l : List Val) : InterpState :=
  { st with listHeap := st.listHeap.set a l }

def allocList (st : InterpState) (l : List Val) : Nat × InterpState :=
  (st.listHeap.length, { st with listHeap := st.listHeap ++ [l] })

def getMapAt (st : InterpState) (a : Nat) : MapObj := st.mapHeap.getD a []

def setMapAt (st : InterpState) (a : Nat) (m : MapObj) : InterpState :=
  { st with mapHeap := st.mapHeap.set a m }

def allocMap (st : InterpState) (m : MapObj) : Nat × InterpState :=
  (st.mapHeap.length, { st with mapHeap := st.mapHeap ++ [m] })

def allocFunc (st : InterpState) (f : FuncObj) : Nat × InterpState :=
  (st.funcHeap.length, { st with funcHeap := st.funcHeap ++ [f] })

/-- interpreter.pushScope: the scope address goes on top of the stack. -/
def pushScope (st : InterpState) (a : Nat) : InterpState :=
  { st with scopes := a :: st.scopes }

/-- interpreter.popScope. -/
def popScope (st : InterpState) : InterpState :=
  { st with scopes := st.scopes.tail }

/-- interpreter.assign: always writes to the topmost scope. -/
def assignVar (st : InterpState) (name : String) (v : Val) : InterpState :=
  match st.scopes with
  | [] => st
  | a :: _ => setScopeAt st a (alInsert (getScopeAt st a) name v)

def lookupIn (st : InterpState) : List Nat → String → Option Val
  | [], _ => none
  | a :: rest, name =>
    match alLookup (getScopeAt st a) name with
    | some v => some v
    | none => lookupIn st rest name

/-- interpreter.lookup: search the scope stack from the top down. -/
def lookupVar (st : InterpState) (name : String) : Option Val :=
  lookupIn st st.scopes name

/-- typeName of the source: the littlelang name of a value's type. -/
def typeNameOf : Val → String
  | .nilV => "nil"
  | .boolV _ => "bool"
  | .intV _ => "int"
  | .strV _ => "str"
  | .listV _ => "list"
  | .mapV _ => "map"
  | .funcV _ => "func"

/-! ### Byte-string helpers mirroring the Go standard library -/

/-- Go string comparison `<`: byte-lexicographic. -/
def bytesLt : Bytes → Bytes → Bool
  | [], [] => false
  | [], _ :: _ => true
  | _ :: _, [] => false
  | x :: xs, y :: ys => if x < y then true else if y < x then false else bytesLt xs ys

/-- strings.Index: byte index of the first occurrence, or -1. -/
def bytesIndex (h needle : Bytes) : Int :=
  match (List.range (h.length + 1)).find? (fun i => needle.isPrefixOf (h.drop i)) with
  | some i => (i : Int)
  | none => -1

/-- strings.Repeat. -/
def bytesRepeat (s : Bytes) (n : Nat) : Bytes := (List.replicate n s).flatten

/-- ASCII whitespace (the claims never exercise the multi-byte Unicode
spaces that unicode.IsSpace also accepts). -/
def isSpaceByte (b : Nat) : Bool :=
  b = 9 ∨ b = 10 ∨ b = 11 ∨ b = 12 ∨ b = 13 ∨ b = 32

def fieldsAux : Bytes → Bytes → List Bytes
  | [], acc => if acc.isEmpty then [] else [acc.reverse]
  | b :: rest, acc =>
    if isSpaceByte b then
      if acc.isEmpty then fieldsAux rest []
      else acc.reverse :: fieldsAux rest []
    else fieldsAux rest (b :: acc)

/-- strings.Fields: split around runs of whitespace, skipping empties. -/
def bytesFields (s : Bytes) : List Bytes := fieldsAux s []

/-- strings.Split with an empty separator: explode into UTF-8 sequences
(an invalid byte forms a one-byte chunk). -/
def explodeUTF8 : Nat → Bytes → List Bytes
  | 0, _ => []
  | _, [] => []
  | n + 1, bs =>
    let d := decodeRune bs
    let sz := if d.2 = 0 then 1 else d.2
    bs.take sz :: explodeUTF8 n (bs.drop sz)

def splitSepAux (sep : Bytes) : Nat → Bytes → List Bytes
  | 0, s => [s]
  | n + 1, s =>
    match (List.range (s.length + 1)).find? (fun i => sep.isPrefixOf (s.drop i)) with
    | none => [s]
    | some i => s.take i :: splitSepAux sep n (s.drop (i + sep.length))

/-- strings.Split. -/
def bytesSplit (s sep : Bytes) : List Bytes :=
  if sep.isEmpty then explodeUTF8 s.length s else splitSepAux sep (s.length + 1) s

/-- ASCII-only strings.ToLower (the source test corpus is ASCII). -/
def bytesLower (s : Bytes) : Bytes :=
  s.map (fun b => if 65 ≤ b ∧ b ≤ 90 then b + 32 else b)

/-- ASCII-only strings.ToUpper. -/
def bytesUpper (s : Bytes) : Bytes :=
  s.map (fun b => if 97 ≤ b ∧ b ≤ 122 then b - 32 else b)

def natToBytes : Nat → Nat → Bytes
  | 0, _ => []
  | f + 1, n => if n < 10 then [48 + n] else natToBytes f (n / 10) ++ [48 + n % 10]

/-- Decimal rendering of an integer (fmt %d). -/
def intToBytes (n : Int) : Bytes :=
  if n < 0 then 45 :: natToBytes 30 n.natAbs else natToBytes 30 n.natAbs

/-- Decimal rendering as a Lean string, for error messages. -/
def intToString (n : Int) : String :=
  String.mk ((intToBytes n).map (fun b => Char.ofNat b))

/-- Lossy byte-to-string conversion for error messages (exact for the
ASCII messages the claims mention). -/
def bytesToString (b : Bytes) : String :=
  String.mk (b.map (fun x => Char.ofNat x))

def hexEscBytes (b : Nat) : Bytes :=
  [92, 120, (hexDigit (b / 16 % 16)).toNat, (hexDigit (b % 16)).toNat]

def quoteAux : Nat → Bytes → Bytes
  | 0, _ => []
  | _, [] => []
  | n + 1, bs =>
    let d := decodeRune bs
    let sz := if d.2 = 0 then 1 else d.2
    let chunk : Bytes :=
      if d.1 = 0xFFFD ∧ d.2 = 1 then hexEscBytes (bs.headD 0)
      else if d.1 = 34 then [92, 34]
      else if d.1 = 92 then [92, 92]
      else if d.1 = 9 then [92, 116]
      else if d.1 = 13 then [92, 114]
      else if d.1 = 10 then [92, 110]
      else if d.1 < 32 ∨ d.1 = 127 then hexEscBytes (bs.headD 0)
      else bs.take sz
    chunk ++ quoteAux n (bs.drop sz)

/-- Go %q quoting of a string: double quotes, C-style escapes for quote,
backslash, tab, CR, LF, and \xNN for other control or invalid bytes
(printable non-ASCII runes are kept as-is). -/
def goQuote (s : Bytes) : Bytes := 34 :: (quoteAux s.length s ++ [34])

/-- Go `string(r)` for each rune of a string (for-range iteration):
invalid bytes yield the replacement rune. -/
def strRunes : Nat → Bytes → List Bytes
  | 0, _ => []
  | _, [] => []
  | n + 1, bs =>
    let d := decodeRune bs
    let sz := if d.2 = 0 then 1 else d.2
    encodeRune d.1.toNat :: strRunes n (bs.drop sz)

/-- Join byte strings with a separator. -/
def joinBytes (sep : Bytes) : List Bytes → Bytes
  | [] => []
  | p :: ps => p ++ (ps.flatMap (fun q => sep ++ q))

def insertSorted (x : Bytes) : List Bytes → List Bytes
  | [] => [x]
  | y :: ys => if bytesLt x y then x :: y :: ys else y :: insertSorted x ys

/-- sort.Strings (ascending byte-lexicographic). -/
def sortBytesList (l : List Bytes) : List Bytes := l.foldr insertSorted []

/-- Two's-complement wrap-around of Go 64-bit int arithmetic. -/
def wrap64 (n : Int) : Int := (n + 2 ^ 63) % 2 ^ 64 - 2 ^ 63

end LL

namespace LL

/-! ### Operator semantics (interp.go evalXxx functions) -/

/-- Conjunction of pairwise comparisons, short-circuiting on the first
inequality (the body of the list/map loops in evalEqual).  `.inl m` is
a Go runtime panic escaping the loop. -/
def forAllEq (f : Val → Val → Option (Sum String Bool)) :
    List (Val × Val) → Option (Sum String Bool)
  | [] => some (.inr true)
  | (x, y) :: rest =>
    match f x y with
    | none => none
    | some (.inl m) => some (.inl m)
    | some (.inr false) => some (.inr false)
    | some (.inr true) => forAllEq f rest

/-- evalEqual: deep equality.  Distinct kinds are unequal; lists
compare by length and element-wise recursion; maps compare by size and
by the left map's keys, reading a missing right-hand key as the Go zero
value `nil`.  Function values are Go interface values: two
`*userFunction` pointers compare by identity, a user function and a
builtin have different dynamic types and compare false, and comparing
two `builtinFunction` values is a Go runtime panic (the struct holds a
func field and is not comparable), modelled as `.inl` with the runtime
error string.  The fuel bounds recursion depth (Go recursion can
diverge on cyclic structures). -/
def evalEqual : Nat → InterpState → Val → Val → Option (Sum String Bool)
  | 0, _, _, _ => none
  | n + 1, st, l, r =>
    match l with
    | .nilV => some (.inr (r = .nilV))
    | .boolV a => match r with | .boolV b => some (.inr (a = b)) | _ => some (.inr false)
    | .intV a => match r with | .intV b => some (.inr (a = b)) | _ => some (.inr false)
    | .strV a => match r with | .strV b => some (.inr (a = b)) | _ => some (.inr false)
    | .listV a =>
      match r with
      | .listV b =>
        let xs := getListAt st a
        let ys := getListAt st b
        if xs.length ≠ ys.length then some (.inr false)
        else forAllEq (fun x y => evalEqual n st x y) (xs.zip ys)
      | _ => some (.inr false)
    | .mapV a =>
      match r with
      | .mapV b =>
        let xs := getMapAt st a
        let ys := getMapAt st b
        if xs.length ≠ ys.length then some (.inr false)
        else
          forAllEq (fun x y => evalEqual n st x y)
            (xs.map (fun kv => (kv.2, (alLookup ys kv.1).getD .nilV)))
      | _ => some (.inr false)
    | .funcV a =>
      match r with
      | .funcV b =>
        match st.funcHeap.get? a, st.funcHeap.get? b with
        | some (.builtin _), some (.builtin _) =>
          some (.inl "runtime error: comparing uncomparable type interpreter.builtinFunction")
        | some (.user _), some (.user _) => some (.inr (a = b))
        | some _, some _ => some (.inr false)
        | _, _ => some (.inr (a = b))
      | _ => some (.inr false)

/-- Existence of an equal element (the list loop in evalIn); `.inl m`
is a Go runtime panic escaping the loop. -/
def anyEqual (f : Val → Val → Option (Sum String Bool)) (l : Val) :
    List Val → Option (Sum String Bool)
  | [] => some (.inr false)
  | v :: vs =>
    match f l v with
    | none => none
    | some (.inl m) => some (.inl m)
    | some (.inr true) => some (.inr true)
    | some (.inr false) => anyEqual f l vs

/-- Result of evaluating an expression-level operation: a value, an
interpreter error (a panic with an error value), or a Go runtime panic. -/
inductive EvOut where
  | val (v : Val)
  | err (e : Err)
  | hostPanic (m : String)
deriving Repr

/-- evalIn. -/
def evalIn (n : Nat) (st : InterpState) (pos : Position) (l r : Val) :
    Option EvOut :=
  match r with
  | .strV t =>
    match l with
    | .strV s => some (.val (.boolV (bytesIndex t s ≥ 0)))
    | _ => some (.err (.typeErr pos ("in str requires str on left side")))
  | .listV b =>
    match anyEqual (fun x y => evalEqual n st x y) l (getListAt st b) with
    | none => none
    | some (.inl m) => some (.hostPanic m)
    | some (.inr bo) => some (.val (.boolV bo))
  | .mapV b =>
    match l with
    | .strV s => some (.val (.boolV ((alLookup (getMapAt st b) s).isSome)))
    | _ => some (.err (.typeErr pos ("in map requires str on left side")))
  | _ => some (.err (.typeErr pos ("in requires str, list, or map on right side")))

/-- The list loop of evalLess: recurse on the first unequal pair, else
compare lengths.  A Go runtime panic from the element equality escapes
the loop as `.hostPanic`. -/
def lexList (eqF : Val → Val → Option (Sum String Bool))
    (ltF : Val → Val → Option EvOut) :
    List Val → List Val → Option EvOut
  | [], [] => some (.val (.boolV false))
  | [], _ :: _ => some (.val (.boolV true))
  | _ :: _, [] => some (.val (.boolV false))
  | x :: xs, y :: ys =>
    match eqF x y with
    | none => none
    | some (.inl m) => some (.hostPanic m)
    | some (.inr false) => ltF x y
    | some (.inr true) => lexList eqF ltF xs ys

/-- evalLess: int/int, str/str (byte-lexicographic), list/list
(recursive lexicographic); anything else is a TypeError. -/
def evalLess : Nat → InterpState → Position → Val → Val → Option EvOut
  | 0, _, _, _, _ => none
  | n + 1, st, pos, l, r =>
    match l, r with
    | .intV a, .intV b => some (.val (.boolV (a < b)))
    | .strV a, .strV b => some (.val (.boolV (bytesLt a b)))
    | .listV a, .listV b =>
      lexList (fun x y => evalEqual n st x y) (fun x y => evalLess n st pos x y)
        (getListAt st a) (getListAt st b)
    | _, _ =>
      some (.err (.typeErr pos
        ("comparison requires two ints or two strs (or lists of ints or strs)")))

/-- evalPlus: int+int, str+str, list+list (new list), map+map (new map,
right wins). -/
def evalPlus (pos : Position) (l r : Val) (st : InterpState) :
    EvOut × InterpState :=
  match l, r with
  | .intV a, .intV b => (.val (.intV (wrap64 (a + b))), st)
  | .strV a, .strV b => (.val (.strV (a ++ b)), st)
  | .listV a, .listV b =>
    let alloc := allocList st (getListAt st a ++ getListAt st b)
    (.val (.listV alloc.1), alloc.2)
  | .mapV a, .mapV b =>
    let merged :=
      (getMapAt st b).foldl (fun m kv => alInsert m kv.1 kv.2)
        ((getMapAt st a).foldl (fun m kv => alInsert m kv.1 kv.2) [])
    let alloc := allocMap st merged
    (.val (.mapV alloc.1), alloc.2)
  | _, _ => (.err (.typeErr pos ("+ requires two ints, strs, lists, or maps")), st)

/-- ensureInts. -/
def ensureInts (pos : Position) (l r : Val) (opName : String) :
    Sum Err (Int × Int) :=
  match l, r with
  | .intV a, .intV b => .inr (a, b)
  | _, _ => .inl (.typeErr pos (opName ++ " requires two ints"))

/-- evalMinus. -/
def evalMinus (pos : Position) (l r : Val) : EvOut :=
  match ensureInts pos l r "-" with
  | .inl e => .err e
  | .inr ab => .val (.intV (wrap64 (ab.1 - ab.2)))

/-- evalTimes: int*int, int*str and str*int (string repetition, negative
count is a ValueError).  NOTE: the source has no list case, so
int*list and list*int fall through to the TypeError. -/
def evalTimes (pos : Position) (l r : Val) : EvOut :=
  match l with
  | .intV a =>
    match r with
    | .intV b => .val (.intV (wrap64 (a * b)))
    | .strV s =>
      if a < 0 then .err (.valueErr pos ("can\x27t multiply string by a negative number"))
      else .val (.strV (bytesRepeat s a.natAbs))
    | _ => .err (.typeErr pos ("* requires two ints or a str and an int"))
  | .strV s =>
    match r with
    | .intV b =>
      if b < 0 then .err (.valueErr pos ("can\x27t multiply string by a negative number"))
      else .val (.strV (bytesRepeat s b.natAbs))
    | _ => .err (.typeErr pos ("* requires two ints or a str and an int"))
  | _ => .err (.typeErr pos ("* requires two ints or a str and an int"))

/-- evalDivide: truncated toward zero; zero divisor is a ValueError. -/
def evalDivide (pos : Position) (l r : Val) : EvOut :=
  match ensureInts pos l r "/" with
  | .inl e => .err e
  | .inr ab =>
    if ab.2 = 0 then .err (.valueErr pos ("can\x27t divide by zero"))
    else .val (.intV (wrap64 (Int.tdiv ab.1 ab.2)))

/-- evalModulo: remainder takes the sign of the dividend. -/
def evalModulo (pos : Position) (l r : Val) : EvOut :=
  match ensureInts pos l r "%" with
  | .inl e => .err e
  | .inr ab =>
    if ab.2 = 0 then .err (.valueErr pos ("can\x27t divide by zero"))
    else .val (.intV (Int.tmod ab.1 ab.2))

/-- evalNot. -/
def evalNot (pos : Position) (v : Val) : EvOut :=
  match v with
  | .boolV b => .val (.boolV (!b))
  | _ => .err (.typeErr pos ("not requires a bool"))

/-- evalNegative. -/
def evalNegative (pos : Position) (v : Val) : EvOut :=
  match v with
  | .intV a => .val (.intV (wrap64 (-a)))
  | _ => .err (.typeErr pos ("unary - requires an int"))

/-- evalSubscript: str[int] is a single-byte string; list[int] is the
element; map[str] is the mapped value or a ValueError; negative or
too-large indexes are ValueErrors. -/
def evalSubscript (st : InterpState) (pos : Position) (container sub : Val) :
    EvOut :=
  match container with
  | .strV s =>
    match sub with
    | .intV i =>
      if i < 0 ∨ i ≥ (s.length : Int) then
        .err (.valueErr pos ("subscript " ++ intToString i ++ " out of range"))
      else .val (.strV [s.getD i.toNat 0])
    | _ => .err (.typeErr pos ("str subscript must be an int"))
  | .listV a =>
    match sub with
    | .intV i =>
      let xs := getListAt st a
      if i < 0 ∨ i ≥ (xs.length : Int) then
        .err (.valueErr pos ("subscript " ++ intToString i ++ " out of range"))
      else .val (xs.getD i.toNat .nilV)
    | _ => .err (.typeErr pos ("list subscript must be an int"))
  | .mapV a =>
    match sub with
    | .strV k =>
      match alLookup (getMapAt st a) k with
      | some v => .val v
      | none =>
        .err (.valueErr pos
          ("key not found: " ++ bytesToString (goQuote k)))
    | _ => .err (.typeErr pos ("map subscript must be a str"))
  | _ => .err (.typeErr pos ("can only subscript str, list, or map"))

/-- assignSubscript: write through a list or map reference. -/
def assignSubscript (st : InterpState) (pos : Position)
    (container sub value : Val) : Sum Err Unit × InterpState :=
  match container with
  | .listV a =>
    match sub with
    | .intV i =>
      let xs := getListAt st a
      if i < 0 ∨ i ≥ (xs.length : Int) then
        (.inl (.valueErr pos ("subscript " ++ intToString i ++ " out of range")), st)
      else (.inr (), setListAt st a (xs.set i.toNat value))
    | _ => (.inl (.typeErr pos ("list subscript must be an int")), st)
  | .mapV a =>
    match sub with
    | .strV k => (.inr (), setMapAt st a (alInsert (getMapAt st a) k value))
    | _ => (.inl (.typeErr pos ("map subscript must be a str")), st)
  | _ => (.inl (.typeErr pos ("can only assign to subscript of list or map")), st)

/-- getIterator, materialised as the list of produced values: runes of
a string (as one-rune strings), a snapshot of a list, or the keys of a
map. -/
def getIterator (st : InterpState) (pos : Position) (v : Val) :
    Sum Err (List Val) :=
  match v with
  | .strV s => .inr ((strRunes s.length s).map (fun b => .strV b))
  | .listV a => .inr (getListAt st a)
  | .mapV a => .inr ((getMapAt st a).map (fun kv => Val.strV kv.1))
  | _ =>
    .inl (.typeErr pos
      ("expected iterable (str, list, or map), got " ++ typeNameOf v))

/-- Sequence a list of optional results. -/
def seqOpt {α : Type} : List (Option α) → Option (List α)
  | [] => some []
  | none :: _ => none
  | some x :: rest =>
    match seqOpt rest with
    | none => none
    | some xs => some (x :: xs)

/-- toString of the source: the littlelang rendering of a value.  Map
items are rendered and then sorted as strings (sort.Strings in the
source).  The fuel bounds recursion depth. -/
def toStringVal : Nat → InterpState → Val → Bool → Option Bytes
  | 0, _, _, _ => none
  | n + 1, st, v, quoteStr =>
    match v with
    | .nilV => some (strBytes "nil")
    | .boolV b => some (strBytes (if b then "true" else "false"))
    | .intV k => some (intToBytes k)
    | .strV s => some (if quoteStr then goQuote s else s)
    | .listV a =>
      match seqOpt ((getListAt st a).map (fun w => toStringVal n st w true)) with
      | none => none
      | some parts => some ([91] ++ joinBytes [44, 32] parts ++ [93])
    | .mapV a =>
      match seqOpt ((getMapAt st a).map (fun kv =>
          (toStringVal n st kv.2 true).map (fun vs =>
            goQuote kv.1 ++ [58, 32] ++ vs))) with
      | none => none
      | some items =>
        some ([123] ++ joinBytes [44, 32] (sortBytesList items) ++ [125])
    | .funcV a =>
      match st.funcHeap.get? a with
      | some (.user f) =>
        some (if f.name = "" then strBytes "<func>"
          else strBytes ("<func " ++ f.name ++ ">"))
      | some (.builtin b) => some (strBytes ("<builtin " ++ builtinName b ++ ">"))
      | none => some (strBytes "<func>")

end LL

namespace LL

/-! ### Built-in functions (interp builtins) -/

/-- ensureNumArgs message: `<name>() requires <k> arg(s), got <n>`. -/
def arityMsg (name : String) (required got : Nat) : String :=
  name ++ "() requires " ++ intToString required ++ " arg" ++
    (if required ≠ 1 then "s" else "") ++ ", got " ++ intToString got

/-- ensureNumArgs: `none` when the count matches, else the TypeError. -/
def ensureNumArgsE (pos : Position) (name : String) (args : List Val)
    (required : Nat) : Option Err :=
  if args.length ≠ required then
    some (.typeErr pos (arityMsg name required args.length))
  else none

def findIdx (f : Val → Val → Option (Sum String Bool)) (needle : Val) :
    List Val → Nat → Option (Sum String Int)
  | [], _ => some (.inr (-1))
  | v :: vs, i =>
    match f needle v with
    | none => none
    | some (.inl m) => some (.inl m)
    | some (.inr true) => some (.inr (i : Int))
    | some (.inr false) => findIdx f needle vs (i + 1)

def allStrs : List Val → Option (List Bytes)
  | [] => some []
  | .strV s :: rest => (allStrs rest).map (fun xs => s :: xs)
  | _ => none

def strRuneVals : Nat → Bytes → List Int
  | 0, _ => []
  | _, [] => []
  | n + 1, bs =>
    let d := decodeRune bs
    let sz := if d.2 = 0 then 1 else d.2
    d.1 :: strRuneVals n (bs.drop sz)

/-- The built-in implementations.  Each mirrors the corresponding
xxxFunc of the source; none of them touches the scope stack or the
scope heap. -/
def runBuiltin (n : Nat) (b : BuiltinId) (pos : Position) (args : List Val)
    (st : InterpState) : Option (EvOut × InterpState) :=
  match b with
  | .appendB =>
    if args.length < 1 then
      some (.err (.typeErr pos
        ("append() requires at least 1 arg, got " ++ intToString args.length)), st)
    else
      match args.head? with
      | some (.listV a) =>
        some (.val .nilV, setListAt st a (getListAt st a ++ args.tail))
      | _ =>
        some (.err (.typeErr pos ("append() requires first argument to be list")), st)
  | .argsB =>
    match ensureNumArgsE pos "args" args 0 with
    | some e => some (.err e, st)
    | none =>
      let alloc := allocList st (st.progArgs.map (fun s => Val.strV s))
      some (.val (.listV alloc.1), alloc.2)
  | .charB =>
    match ensureNumArgsE pos "char" args 1 with
    | some e => some (.err e, st)
    | none =>
      match args.head? with
      | some (.intV code) =>
        some (.val (.strV (if code < 0 then [0xEF, 0xBF, 0xBD]
          else encodeRune code.toNat)), st)
      | some v =>
        some (.err (.typeErr pos
          ("char() requires an int, not " ++ typeNameOf v)), st)
      | none => some (.hostPanic "internal: missing argument", st)
  | .exitB =>
    if args.length > 1 then
      some (.err (.typeErr pos
        ("exit() requires 0 or 1 args, got " ++ intToString args.length)), st)
    else
      match args.head? with
      | none => some (.val .nilV, { st with exitCalls := st.exitCalls ++ [0] })
      | some (.intV code) =>
        some (.val .nilV, { st with exitCalls := st.exitCalls ++ [code] })
      | some v =>
        some (.err (.typeErr pos
          ("exit() requires an int, not " ++ typeNameOf v)), st)
  | .findB =>
    match ensureNumArgsE pos "find" args 2 with
    | some e => some (.err e, st)
    | none =>
      match args.head? with
      | some (.strV h) =>
        match args.getD 1 .nilV with
        | .strV needle => some (.val (.intV (bytesIndex h needle)), st)
        | _ =>
          some (.err (.typeErr pos
            ("find() on str requires second argument to be a str")), st)
      | some (.listV a) =>
        match findIdx (fun x y => evalEqual n st x y) (args.getD 1 .nilV)
            (getListAt st a) 0 with
        | none => none
        | some (.inl m) => some (.hostPanic m, st)
        | some (.inr i) => some (.val (.intV i), st)
      | _ =>
        some (.err (.typeErr pos
          ("find() requires first argument to be a str or list")), st)
  | .intB =>
    match ensureNumArgsE pos "int" args 1 with
    | some e => some (.err e, st)
    | none =>
      match args.head? with
      | some (.intV k) => some (.val (.intV k), st)
      | some (.strV s) =>
        match goAtoiBytes s with
        | some i => some (.val (.intV i), st)
        | none => some (.val .nilV, st)
      | _ => some (.err (.typeErr pos ("int() requires an int or a str")), st)
  | .joinB =>
    match ensureNumArgsE pos "join" args 2 with
    | some e => some (.err e, st)
    | none =>
      match args.getD 1 .nilV with
      | .strV sep =>
        match args.head? with
        | some (.listV a) =>
          match allStrs (getListAt st a) with
          | some parts => some (.val (.strV (joinBytes sep parts)), st)
          | none =>
            some (.err (.typeErr pos
              ("join() requires all list elements to be strs")), st)
        | _ =>
          some (.err (.typeErr pos
            ("join() requires first argument to be a list")), st)
      | _ =>
        some (.err (.typeErr pos ("join() requires separator to be a str")), st)
  | .lenB =>
    match ensureNumArgsE pos "len" args 1 with
    | some e => some (.err e, st)
    | none =>
      match args.head? with
      | some (.strV s) => some (.val (.intV s.length), st)
      | some (.listV a) => some (.val (.intV (getListAt st a).length), st)
      | some (.mapV a) => some (.val (.intV (getMapAt st a).length), st)
      | _ => some (.err (.typeErr pos ("len() requires a str, list, or map")), st)
  | .lowerB =>
    match ensureNumArgsE pos "lower" args 1 with
    | some e => some (.err e, st)
    | none =>
      match args.head? with
      | some (.strV s) => some (.val (.strV (bytesLower s)), st)
      | _ => some (.err (.typeErr pos ("lower() requires a str")), st)
  | .printB =>
    match seqOpt (args.map (fun a => toStringVal n st a false)) with
    | none => none
    | some parts =>
      some (.val .nilV, { st with output := st.output ++ [joinBytes [32] parts] })
  | .rangeB =>
    match ensureNumArgsE pos "range" args 1 with
    | some e => some (.err e, st)
    | none =>
      match args.head? with
      | some (.intV k) =>
        if k < 0 then
          some (.err (.valueErr pos ("range() argument must not be negative")), st)
        else
          let alloc := allocList st ((List.range k.toNat).map (fun i => Val.intV i))
          some (.val (.listV alloc.1), alloc.2)
      | _ => some (.err (.typeErr pos ("range() requires an int")), st)
  | .readB =>
    if args.length > 1 then
      some (.err (.typeErr pos
        ("read() requires 0 or 1 args, got " ++ intToString args.length)), st)
    else
      match args.head? with
      | none => some (.val (.strV st.stdinData), { st with stdinData := [] })
      | some (.strV path) =>
        match (st.files.find? (fun p => p.1 = path)).map (fun p => p.2) with
        | some content => some (.val (.strV content), st)
        | none => some (.err (.runtimeErr pos ("read() error")), st)
      | some _ =>
        some (.err (.typeErr pos ("read() argument must be a str")), st)
  | .runeB =>
    match ensureNumArgsE pos "rune" args 1 with
    | some e => some (.err e, st)
    | none =>
      match args.head? with
      | some (.strV s) =>
        match strRuneVals s.length s with
        | [r] => some (.val (.intV r), st)
        | _ => some (.err (.valueErr pos ("rune() requires a 1-character str")), st)
      | _ => some (.err (.typeErr pos ("rune() requires a str")), st)
  | .sliceB =>
    match ensureNumArgsE pos "slice" args 3 with
    | some e => some (.err e, st)
    | none =>
      match args.getD 1 .nilV, args.getD 2 .nilV with
      | .intV a, .intV b =>
        match args.head? with
        | some (.strV s) =>
          if a < 0 ∨ b > (s.length : Int) ∨ a > b then
            some (.err (.valueErr pos ("slice() start or end out of bounds")), st)
          else some (.val (.strV ((s.drop a.toNat).take (b - a).toNat)), st)
        | some (.listV la) =>
          let xs := getListAt st la
          if a < 0 ∨ b > (xs.length : Int) ∨ a > b then
            some (.err (.valueErr pos ("slice() start or end out of bounds")), st)
          else
            let alloc := allocList st ((xs.drop a.toNat).take (b - a).toNat)
            some (.val (.listV alloc.1), alloc.2)
        | _ =>
          some (.err (.typeErr pos
            ("slice() requires first argument to be a str or list")), st)
      | _, _ =>
        some (.err (.typeErr pos
          ("slice() requires start and end to be ints")), st)
  | .splitB =>
    match ensureNumArgsE pos "split" args 2 with
    | some e => some (.err e, st)
    | none =>
      match args.head? with
      | some (.strV s) =>
        match args.getD 1 .nilV with
        | .nilV =>
          let alloc := allocList st ((bytesFields s).map (fun p => Val.strV p))
          some (.val (.listV alloc.1), alloc.2)
        | .strV sep =>
          let alloc := allocList st ((bytesSplit s sep).map (fun p => Val.strV p))
          some (.val (.listV alloc.1), alloc.2)
        | _ =>
          some (.err (.typeErr pos
            ("split() requires separator to be a str or nil")), st)
      | _ =>
        some (.err (.typeErr pos
          ("split() requires first argument to be a str")), st)
  | .strB =>
    match ensureNumArgsE pos "str" args 1 with
    | some e => some (.err e, st)
    | none =>
      match toStringVal n st (args.getD 0 .nilV) false with
      | none => none
      | some s => some (.val (.strV s), st)
  | .typeB =>
    match ensureNumArgsE pos "type" args 1 with
    | some e => some (.err e, st)
    | none => some (.val (.strV (strBytes (typeNameOf (args.getD 0 .nilV)))), st)
  | .upperB =>
    match ensureNumArgsE pos "upper" args 1 with
    | some e => some (.err e, st)
    | none =>
      match args.head? with
      | some (.strV s) => some (.val (.strV (bytesUpper s)), st)
      | _ => some (.err (.typeErr pos ("upper() requires a str")), st)

end LL

namespace LL

/-! ### The tree-walk evaluator -/

/-- Source position of an expression node. -/
def Expr.posOf : Expr → Position
  | .binary p _ _ _ => p
  | .unary p _ _ => p
  | .call p _ _ _ => p
  | .lit p _ => p
  | .varE p _ => p
  | .listE p _ => p
  | .mapE p _ => p
  | .funcE p _ _ _ => p
  | .subscript p _ _ => p

/-- Outcome of the argument prologue of userFunction.call. -/
inductive PrepRes where
  | okA (newArgs : List Val) (st : InterpState)
  | errA (e : Err)
  | panicA (m : String)
deriving Repr

/-- The prologue of userFunction.call: with an ellipsis, the slice
expression `args[len(f.Parameters)-1:]` runs before any arity check --
when fewer than k-1 arguments are supplied this is a Go slice-bounds
panic, not an interpreter error.  Otherwise the trailing arguments are
collected into a new list and ensureNumArgs checks the (rebuilt)
argument count. -/
def prepareUserArgs (f : FuncUser) (pos : Position) (args : List Val)
    (st : InterpState) : PrepRes :=
  if f.ellipsis then
    match f.params with
    | [] => .panicA "runtime error: slice bounds out of range"
    | _ :: ps =>
      if args.length < ps.length then
        .panicA "runtime error: slice bounds out of range"
      else
        let alloc := allocList st (args.drop ps.length)
        let newArgs := args.take ps.length ++ [Val.listV alloc.1]
        match ensureNumArgsE pos f.name newArgs f.params.length with
        | some e => .errA e
        | none => .okA newArgs alloc.2
  else
    match ensureNumArgsE pos f.name args f.params.length with
    | some e => .errA e
    | none => .okA args st

/-- Bind parameters positionally into the top (fresh) scope. -/
def bindAll (st : InterpState) (pairs : List (String × Val)) : InterpState :=
  pairs.foldl (fun s p => assignVar s p.1 p.2) st

/-- The scope contents produced by binding parameters positionally into
an empty scope. -/
def bindParams (params : List String) (args : List Val) : Scope :=
  (params.zip args).foldl (fun sc p => alInsert sc p.1 p.2) []

def bumpOps (st : InterpState) : InterpState :=
  { st with stats := { st.stats with ops := st.stats.ops + 1 } }

def bumpUser (st : InterpState) : InterpState :=
  { st with stats := { st.stats with userCalls := st.stats.userCalls + 1 } }

def bumpBuiltin (st : InterpState) : InterpState :=
  { st with stats := { st.stats with builtinCalls := st.stats.builtinCalls + 1 } }

/-- Membership in the binaryEvalFuncs table. -/
def isStrictBinOp (op : Tok) : Bool :=
  match op with
  | .divideT | .equalT | .gtT | .gteT | .inT | .ltT | .lteT
  | .minusT | .moduloT | .notequalT | .plusT | .timesT => true
  | _ => false

/-- The `!....(bool)` wrappers of the binaryEvalFuncs table: negate a
successful bool comparison; errors and runtime panics pass through
(the wrapped functions only ever return bools). -/
def negBoolOut : EvOut → EvOut
  | .val (.boolV b) => .val (.boolV (!b))
  | o => o

/-- Dispatch through the binaryEvalFuncs table. -/
def binApply (n : Nat) (op : Tok) (pos : Position) (l r : Val)
    (st : InterpState) : Option (EvOut × InterpState) :=
  match op with
  | .divideT => some (evalDivide pos l r, st)
  | .equalT =>
    match evalEqual n st l r with
    | none => none
    | some (.inl m) => some (.hostPanic m, st)
    | some (.inr b) => some (.val (.boolV b), st)
  | .gtT => (evalLess n st pos r l).map (fun o => (o, st))
  | .gteT => (evalLess n st pos l r).map (fun o => (negBoolOut o, st))
  | .inT => (evalIn n st pos l r).map (fun o => (o, st))
  | .ltT => (evalLess n st pos l r).map (fun o => (o, st))
  | .lteT => (evalLess n st pos r l).map (fun o => (negBoolOut o, st))
  | .minusT => some (evalMinus pos l r, st)
  | .moduloT => some (evalModulo pos l r, st)
  | .notequalT =>
    match evalEqual n st l r with
    | none => none
    | some (.inl m) => some (.hostPanic m, st)
    | some (.inr b) => some (.val (.boolV (!b)), st)
  | .plusT => some (evalPlus pos l r st)
  | .timesT => some (evalTimes pos l r, st)
  | _ => some (.hostPanic "unknown binary operator", st)

/-- Evaluator tasks: expression and statement evaluation, blocks,
argument lists, map literals, function calls (callFunction) and the
two loop forms. -/
inductive Task where
  | evalE (e : Expr)
  | execS (s : Stmt)
  | execB (b : List Stmt)
  | evalArgs (es : List Expr)
  | evalMapItems (items : List (Expr × Expr)) (acc : MapObj)
  | callV (pos : Position) (f : Val) (args : List Val)
  | forIter (name : String) (vals : List Val) (body : List Stmt)
  | whileLoop (cond : Expr) (body : List Stmt)

/-- Evaluator outcomes.  `ret` is the returnResult panic (caught by
callFunction), `err` an interpreter error panic (caught by
Execute/Evaluate), `hostPanic` any other Go panic (re-raised). -/
inductive Out where
  | val (v : Val)
  | vals (vs : List Val)
  | mapv (m : MapObj)
  | done
  | ret (v : Val) (pos : Position)
  | err (e : Err)
  | hostPanic (m : String)
deriving Repr

/-- Embed an operator outcome into an evaluator outcome. -/
def EvOut.toOut : EvOut → Out
  | .val v => .val v
  | .err e => .err e
  | .hostPanic m => .hostPanic m

/-- The evaluator (interpreter.evaluate / executeStatement /
executeBlock / callFunction / userFunction.call).  All recursion is on
the fuel; `none` means the fuel ran out. -/
def run : Nat → Task → InterpState → Option (Out × InterpState)
  | 0, _, _ => none
  | n + 1, task, st =>
    match task with
    | .evalE e =>
      let st := bumpOps st
      match e with
      | .binary pos le op re =>
        if isStrictBinOp op then
          match run n (.evalE le) st with
          | none => none
          | some (.val lv, st₁) =>
            match run n (.evalE re) st₁ with
            | none => none
            | some (.val rv, st₂) =>
              match binApply n op pos lv rv st₂ with
              | none => none
              | some (o, st₃) => some (o.toOut, st₃)
            | some (o, st₂) => some (o, st₂)
          | some (o, st₁) => some (o, st₁)
        else if op = .andT then
          match run n (.evalE le) st with
          | none => none
          | some (.val (.boolV false), st₁) => some (.val (.boolV false), st₁)
          | some (.val (.boolV true), st₁) =>
            match run n (.evalE re) st₁ with
            | none => none
            | some (.val (.boolV b), st₂) => some (.val (.boolV b), st₂)
            | some (.val _, st₂) =>
              some (.err (.typeErr pos ("and requires two bools")), st₂)
            | some (o, st₂) => some (o, st₂)
          | some (.val _, st₁) =>
            some (.err (.typeErr pos ("and requires two bools")), st₁)
          | some (o, st₁) => some (o, st₁)
        else if op = .orT then
          match run n (.evalE le) st with
          | none => none
          | some (.val (.boolV true), st₁) => some (.val (.boolV true), st₁)
          | some (.val (.boolV false), st₁) =>
            match run n (.evalE re) st₁ with
            | none => none
            | some (.val (.boolV b), st₂) => some (.val (.boolV b), st₂)
            | some (.val _, st₂) =>
              some (.err (.typeErr pos ("or requires two bools")), st₂)
            | some (o, st₂) => some (o, st₂)
          | some (.val _, st₁) =>
            some (.err (.typeErr pos ("or requires two bools")), st₁)
          | some (o, st₁) => some (o, st₁)
        else some (.hostPanic "unknown binary operator", st)
      | .unary pos op oe =>
        match run n (.evalE oe) st with
        | none => none
        | some (.val v, st₁) =>
          match op with
          | .notT => some ((evalNot pos v).toOut, st₁)
          | .minusT => some ((evalNegative pos v).toOut, st₁)
          | _ => some (.hostPanic "unknown unary operator", st₁)
        | some (o, st₁) => some (o, st₁)
      | .call _ fe argEs ellipsis =>
        match run n (.evalE fe) st with
        | none => none
        | some (.val fv, st₁) =>
          match fv with
          | .funcV a =>
            match run n (.evalArgs argEs) st₁ with
            | none => none
            | some (.vals argv, st₂) =>
              if ellipsis then
                match argv.getLast? with
                | none => some (.hostPanic "runtime error: index out of range", st₂)
                | some lastV =>
                  let lastPos := ((argEs.getLast?).map Expr.posOf).getD fe.posOf
                  match getIterator st₂ lastPos lastV with
                  | .inl er => some (.err er, st₂)
                  | .inr iterVals =>
                    run n (.callV fe.posOf (.funcV a) (argv.dropLast ++ iterVals)) st₂
              else run n (.callV fe.posOf (.funcV a) argv) st₂
            | some (o, st₂) => some (o, st₂)
          | _ =>
            some (.err (.typeErr fe.posOf
              ("can\x27t call non-function type " ++ typeNameOf fv)), st₁)
        | some (o, st₁) => some (o, st₁)
      | .lit _ v =>
        match v with
        | .nilL => some (.val .nilV, st)
        | .boolL b => some (.val (.boolV b), st)
        | .intL k => some (.val (.intV k), st)
        | .strL s => some (.val (.strV s), st)
      | .varE pos name =>
        match lookupVar st name with
        | some v => some (.val v, st)
        | none =>
          some (.err (.nameErr pos
            ("name " ++ bytesToString (goQuote (strBytes name)) ++ " not found")), st)
      | .listE _ es =>
        match run n (.evalArgs es) st with
        | none => none
        | some (.vals vs, st₁) =>
          let alloc := allocList st₁ vs
          some (.val (.listV alloc.1), alloc.2)
        | some (o, st₁) => some (o, st₁)
      | .mapE _ items =>
        match run n (.evalMapItems items []) st with
        | none => none
        | some (.mapv m, st₁) =>
          let alloc := allocMap st₁ m
          some (.val (.mapV alloc.1), alloc.2)
        | some (o, st₁) => some (o, st₁)
      | .funcE _ params ell body =>
        let alloc := allocFunc st
          (.user ⟨"", params, ell, body, st.scopes.headD 0⟩)
        some (.val (.funcV alloc.1), alloc.2)
      | .subscript _ ce se =>
        match run n (.evalE ce) st with
        | none => none
        | some (.val cv, st₁) =>
          match run n (.evalE se) st₁ with
          | none => none
          | some (.val sv, st₂) =>
            some ((evalSubscript st₂ se.posOf cv sv).toOut, st₂)
          | some (o, st₂) => some (o, st₂)
        | some (o, st₁) => some (o, st₁)
    | .execS s =>
      let st := bumpOps st
      match s with
      | .assign _ target value =>
        match target with
        | .varE _ name =>
          match run n (.evalE value) st with
          | none => none
          | some (.val v, st₁) => some (.done, assignVar st₁ name v)
          | some (o, st₁) => some (o, st₁)
        | .subscript _ ce se =>
          match run n (.evalE ce) st with
          | none => none
          | some (.val cv, st₁) =>
            match run n (.evalE se) st₁ with
            | none => none
            | some (.val sv, st₂) =>
              match run n (.evalE value) st₂ with
              | none => none
              | some (.val vv, st₃) =>
                match assignSubscript st₃ se.posOf cv sv vv with
                | (.inl e, st₄) => some (.err e, st₄)
                | (.inr _, st₄) => some (.done, st₄)
              | some (o, st₃) => some (o, st₃)
            | some (o, st₂) => some (o, st₂)
          | some (o, st₁) => some (o, st₁)
        | _ => some (.hostPanic "can only assign to variable or subscript", st)
      | .ifS _ cond body elseB =>
        match run n (.evalE cond) st with
        | none => none
        | some (.val (.boolV true), st₁) => run n (.execB body) st₁
        | some (.val (.boolV false), st₁) => run n (.execB elseB) st₁
        | some (.val v, st₁) =>
          some (.err (.typeErr cond.posOf
            ("if condition must be bool, got " ++ typeNameOf v)), st₁)
        | some (o, st₁) => some (o, st₁)
      | .whileS _ cond body => run n (.whileLoop cond body) st
      | .forS _ name iter body =>
        match run n (.evalE iter) st with
        | none => none
        | some (.val v, st₁) =>
          match getIterator st₁ iter.posOf v with
          | .inl e => some (.err e, st₁)
          | .inr vals => run n (.forIter name vals body) st₁
        | some (o, st₁) => some (o, st₁)
      | .exprS _ e =>
        match run n (.evalE e) st with
        | none => none
        | some (.val _, st₁) => some (.done, st₁)
        | some (o, st₁) => some (o, st₁)
      | .funcDef _ name params ell body =>
        let alloc := allocFunc st (.user ⟨name, params, ell, body, st.scopes.headD 0⟩)
        some (.done, assignVar alloc.2 name (.funcV alloc.1))
      | .retS pos e =>
        match run n (.evalE e) st with
        | none => none
        | some (.val v, st₁) => some (.ret v pos, st₁)
        | some (o, st₁) => some (o, st₁)
    | .execB b =>
      match b with
      | [] => some (.done, st)
      | s :: rest =>
        match run n (.execS s) st with
        | none => none
        | some (.done, st₁) => run n (.execB rest) st₁
        | some (o, st₁) => some (o, st₁)
    | .evalArgs es =>
      match es with
      | [] => some (.vals [], st)
      | e :: rest =>
        match run n (.evalE e) st with
        | none => none
        | some (.val v, st₁) =>
          match run n (.evalArgs rest) st₁ with
          | none => none
          | some (.vals vs, st₂) => some (.vals (v :: vs), st₂)
          | some (o, st₂) => some (o, st₂)
        | some (o, st₁) => some (o, st₁)
    | .evalMapItems items acc =>
      match items with
      | [] => some (.mapv acc, st)
      | (ke, ve) :: rest =>
        match run n (.evalE ke) st with
        | none => none
        | some (.val kv, st₁) =>
          match kv with
          | .strV ks =>
            match run n (.evalE ve) st₁ with
            | none => none
            | some (.val vv, st₂) =>
              run n (.evalMapItems rest (alInsert acc ks vv)) st₂
            | some (o, st₂) => some (o, st₂)
          | _ =>
            some (.err (.typeErr ke.posOf
              ("map key must be str, not " ++ typeNameOf kv)), st₁)
        | some (o, st₁) => some (o, st₁)
    | .callV pos fv args =>
      match fv with
      | .funcV a =>
        match st.funcHeap.get? a with
        | none => some (.hostPanic "invalid function reference", st)
        | some (.builtin b) =>
          (runBuiltin n b pos args (bumpBuiltin st)).map (fun r => (r.1.toOut, r.2))
        | some (.user f) =>
          match prepareUserArgs f pos args st with
          | .panicA m => some (.hostPanic m, st)
          | .errA e => some (.err e, st)
          | .okA newArgs st₁ =>
            let st₂ := pushScope st₁ f.closure
            let alloc := allocScope st₂ []
            let st₃ := pushScope alloc.2 alloc.1
            let st₄ := bumpUser (bindAll st₃ (f.params.zip newArgs))
            match run n (.execB f.body) st₄ with
            | none => none
            | some (o, st₅) =>
              let st₆ := popScope (popScope st₅)
              match o with
              | .done => some (.val .nilV, st₆)
              | .ret v _ => some (.val v, st₆)
              | .err e => some (.err e, st₆)
              | .hostPanic m => some (.hostPanic m, st₆)
              | _ => some (.hostPanic "internal: unexpected body result", st₆)
      | _ => some (.hostPanic "call of non-function value", st)
    | .forIter name vals body =>
      match vals with
      | [] => some (.done, st)
      | v :: rest =>
        match run n (.execB body) (assignVar st name v) with
        | none => none
        | some (.done, st₁) => run n (.forIter name rest body) st₁
        | some (o, st₁) => some (o, st₁)
    | .whileLoop cond body =>
      match run n (.evalE cond) st with
      | none => none
      | some (.val (.boolV false), st₁) => some (.done, st₁)
      | some (.val (.boolV true), st₁) =>
        match run n (.execB body) st₁ with
        | none => none
        | some (.done, st₂) => run n (.whileLoop cond body) st₂
        | some (o, st₂) => some (o, st₂)
      | some (.val v, st₁) =>
        some (.err (.typeErr cond.posOf
          ("while condition must be bool, got " ++ typeNameOf v)), st₁)
      | some (o, st₁) => some (o, st₁)

end LL

namespace LL

/-- The global-scope built-in table (newInterpreter populates the global
scope from the builtins map; iteration order of a Go map is
unspecified, a fixed order is used here). -/
def builtinList : List BuiltinId :=
  [.appendB, .argsB, .charB, .exitB, .findB, .intB, .joinB, .lenB,
   .lowerB, .printB, .rangeB, .readB, .runeB, .sliceB, .splitB,
   .strB, .typeB, .upperB]

/-- newInterpreter: one global scope holding the built-ins. -/
def newInterpreterState (args : List Bytes) (stdin : Bytes)
    (files : List (Bytes × Bytes)) : InterpState :=
  { scopes := [0]
    scopeHeap :=
      [((builtinList.zip (List.range builtinList.length)).map
        (fun p => (builtinName p.1, Val.funcV p.2)))]
    listHeap := []
    mapHeap := []
    funcHeap := builtinList.map (fun b => FuncObj.builtin b)
    output := []
    stdinData := stdin
    files := files
    exitCalls := []
    progArgs := args
    stats := ⟨0, 0, 0⟩ }

/-- Overall result of Execute. -/
inductive ExecOut where
  | okE
  | errE (e : Err)
  | panicE (m : String)
deriving Repr

/-- interpreter.Execute: run the program statements; a returnResult
unwinding to the top becomes the RuntimeError "can't return at top
level"; interpreter errors are returned; other panics re-raise. -/
def interpExecute (fuel : Nat) (prog : List Stmt) (st : InterpState) :
    Option (ExecOut × InterpState) :=
  match run fuel (.execB prog) st with
  | none => none
  | some (.done, st') => some (.okE, st')
  | some (.ret _ pos, st') =>
    some (.errE (.runtimeErr pos ("can\x27t return at top level")), st')
  | some (.err e, st') => some (.errE e, st')
  | some (.hostPanic m, st') => some (.panicE m, st')
  | some (_, st') => some (.panicE "internal: unexpected program result", st')

end LL

namespace LL

/-! ### C1: map equality -/

theorem forAllEq_true (f : Val → Val → Option (Sum String Bool)) :
    ∀ (l : List (Val × Val)), forAllEq f l = some (.inr true) ↔
      ∀ p ∈ l, f p.1 p.2 = some (.inr true) := by
  intro l
  induction l with
  | nil => simp [forAllEq]
  | cons q rest ih =>
    obtain ⟨x, y⟩ := q
    constructor
    · intro h
      simp only [forAllEq] at h
      split at h
      · cases h
      · cases h
      · cases h
      · rename_i hx
        intro p hp
        rcases List.mem_cons.mp hp with rfl | hpr
        · exact hx
        · exact (ih.mp h) p hpr
    · intro h
      have hx := h (x, y) (List.mem_cons_self _ _)
      simp only [forAllEq, hx]
      exact ih.mpr (fun p hp => h p (List.mem_cons_of_mem _ hp))

/-- An empty interpreter state, used to build concrete heaps in
counterexamples and witnesses. -/
def baseState : InterpState :=
  { scopes := []
    scopeHeap := []
    listHeap := []
    mapHeap := []
    funcHeap := []
    output := []
    stdinData := []
    files := []
    exitCalls := []
    progArgs := []
    stats := ⟨0, 0, 0⟩ }

/-- An interpreter state holding exactly the two maps of the C1
counterexample. -/
def c1State : InterpState :=
  { baseState with mapHeap := [[(strBytes "a", .nilV)], [(strBytes "b", .nilV)]] }

/-- C1 counterexample: the maps at addresses 0 and 1 hold
`{"a": nil}` and `{"b": nil}`.  Their key sets differ, yet evalEqual
returns true: the map loop looks up only the left map's keys in the
right map and reads the missing key "a" as the Go zero value nil. -/
theorem claim_C1_counterexample :
    getMapAt c1State 0 = [(strBytes "a", .nilV)] ∧
    getMapAt c1State 1 = [(strBytes "b", .nilV)] ∧
    (getMapAt c1State 0).map Prod.fst ≠ (getMapAt c1State 1).map Prod.fst ∧
    evalEqual 9 c1State (.mapV 0) (.mapV 1) = some (.inr true) := by
  refine ⟨rfl, rfl, ?_, rfl⟩
  decide

/-- An interpreter state holding `{"x": nil}` at map address 0 and
`{"y": 1}` at map address 1: equal sizes, disjoint key sets. -/
def c1AsymState : InterpState :=
  { baseState with mapHeap := [[(strBytes "x", .nilV)], [(strBytes "y", .intV 1)]] }

/-- C1 (amended): == on two map values returns true if and only if the
maps have equal sizes and, for every key-value pair of the left map,
the value deeply equals the right map's entry at that key, where a key
missing from the right map reads as the Go zero value nil (deep
equality of the entries being evalEqual itself at the remaining
depth).  Equal key sets are not required, and the final two conjuncts
show the relation is not symmetric: on the maps `{"x": nil}` and
`{"y": 1}` of equal size and disjoint key sets, == holds left-to-right
and fails right-to-left. -/
theorem claim_C1_map_equality (n : Nat) (st : InterpState) (a b : Nat) :
    (evalEqual (n + 1) st (.mapV a) (.mapV b) = some (.inr true) ↔
      ((getMapAt st a).length = (getMapAt st b).length ∧
       ∀ p ∈ getMapAt st a,
         evalEqual n st p.2 ((alLookup (getMapAt st b) p.1).getD .nilV) =
           some (.inr true))) ∧
    evalEqual 9 c1AsymState (.mapV 0) (.mapV 1) = some (.inr true) ∧
    evalEqual 9 c1AsymState (.mapV 1) (.mapV 0) = some (.inr false) := by
  refine ⟨?_, rfl, rfl⟩
  constructor
  · intro h
    simp only [evalEqual] at h
    split at h
    · cases h
    · rename_i hne
      refine ⟨by omega, ?_⟩
      intro p hp
      have hmem : (p.2, (alLookup (getMapAt st b) p.1).getD .nilV) ∈
          (getMapAt st a).map
            (fun kv => (kv.2, (alLookup (getMapAt st b) kv.1).getD .nilV)) :=
        List.mem_map_of_mem _ hp
      exact (forAllEq_true _ _).mp h _ hmem
  · rintro ⟨hlen, hvals⟩
    simp only [evalEqual, hlen, ne_eq, not_true_eq_false, if_false]
    exact (forAllEq_true _ _).mpr (by
      intro p hp
      obtain ⟨kv, hkv, rfl⟩ := List.mem_map.mp hp
      exact hvals kv hkv)

/-- An interpreter state holding the equal maps `{"a": 1}` and
`{"a": 1}` at map addresses 0 and 1. -/
def c1EqState : InterpState :=
  { baseState with mapHeap := [[(strBytes "a", .intV 1)], [(strBytes "a", .intV 1)]] }

/-- Witness for C1: applying the equivalence left-to-right at the
concrete equal maps `{"a": 1}` and `{"a": 1}` yields the size equation
and the per-key deep equality of their entries. -/
theorem claim_C1_witness :
    (getMapAt c1EqState 0).length = (getMapAt c1EqState 1).length ∧
    ∀ p ∈ getMapAt c1EqState 0,
      evalEqual 8 c1EqState p.2 ((alLookup (getMapAt c1EqState 1) p.1).getD .nilV) =
        some (.inr true) :=
  (claim_C1_map_equality 8 c1EqState 0 1).1.mp rfl

end LL

namespace LL

/-- Parse and execute a source program in a fresh interpreter with no
arguments, no stdin and no files; returns the overall outcome and the
print output. -/
def execSource (fuel : Nat) (src : String) : Option (ExecOut × List Bytes) :=
  match parseProgram fuel (strBytes src) with
  | .okP prog =>
    (interpExecute fuel prog (newInterpreterState [] [] [])).map
      (fun r => (r.1, r.2.output))
  | _ => none

/-- C2 (code bug): evalTimes accepts int*int, int*str and str*int, but
has no case for int*list or list*int: both fall through to the
TypeError "* requires two ints or a str and an int", although the
repository's own interpreter tests expect `lst*3` and `3*lst` to build
a repeated list (and expect the error message to mention lists).  The
last conjunct runs the failing program end to end. -/
theorem claim_C2_times_list_rejected :
    evalTimes ⟨1, 19⟩ (.intV 3) (.listV 0) =
      .err (.typeErr ⟨1, 19⟩ ("* requires two ints or a str and an int")) ∧
    evalTimes ⟨1, 19⟩ (.listV 0) (.intV 3) =
      .err (.typeErr ⟨1, 19⟩ ("* requires two ints or a str and an int")) ∧
    evalTimes ⟨1, 19⟩ (.intV 2) (.intV 3) = .val (.intV 6) ∧
    evalTimes ⟨1, 19⟩ (.intV 3) (.strV (strBytes "fo")) =
      .val (.strV (strBytes "fofofo")) ∧
    execSource 999 "lst=[1,2]  print(3*lst)" =
      some (.errE (.typeErr ⟨1, 19⟩ ("* requires two ints or a str and an int")), []) := by
  exact ⟨rfl, rfl, rfl, rfl, rfl⟩

/-- C4 (code bug): splitFunc calls ensureNumArgs with an exact count of
2, so the 1-argument form `split(s)` raises TypeError "split() requires
2 args, got 1" (the repository's own tests expect it to split on
whitespace and expect the message "split() requires 1 or 2 args").  An
empty string separator is not rejected: it is passed to strings.Split,
which explodes the string into UTF-8 sequences.  A nil separator does
split on runs of whitespace. -/
theorem claim_C4_split_arity :
    runBuiltin 9 .splitB ⟨1, 1⟩ [.strV (strBytes "xyz")] baseState =
      some (.err (.typeErr ⟨1, 1⟩ ("split() requires 2 args, got 1")), baseState) ∧
    runBuiltin 9 .splitB ⟨1, 1⟩ [.strV (strBytes "ab"), .strV []] baseState =
      some (.val (.listV 0),
        { baseState with listHeap := [[.strV (strBytes "a"), .strV (strBytes "b")]] }) ∧
    runBuiltin 9 .splitB ⟨1, 1⟩ [.strV (strBytes " a  b "), .nilV] baseState =
      some (.val (.listV 0),
        { baseState with listHeap := [[.strV (strBytes "a"), .strV (strBytes "b")]] }) := by
  exact ⟨rfl, rfl, rfl⟩

end LL

namespace LL

/-- C8: subscript reads.  A string subscript in `[0, byte length)`
yields the single-byte string at that byte index; a list subscript in
`[0, len)` yields the element; every out-of-range index (in particular
every negative one) is a ValueError; a map subscript returns the mapped
value when the key is present and otherwise raises
ValueError `key not found: "<k>"`. -/
theorem claim_C8_subscript_read (st : InterpState) (pos : Position) :
    (∀ (s : Bytes) (i : Int), 0 ≤ i → i < (s.length : Int) →
      evalSubscript st pos (.strV s) (.intV i) = .val (.strV [s.getD i.toNat 0])) ∧
    (∀ (s : Bytes) (i : Int), i < 0 ∨ (s.length : Int) ≤ i →
      evalSubscript st pos (.strV s) (.intV i) =
        .err (.valueErr pos ("subscript " ++ intToString i ++ " out of range"))) ∧
    (∀ (a : Nat) (i : Int), 0 ≤ i → i < ((getListAt st a).length : Int) →
      evalSubscript st pos (.listV a) (.intV i) =
        .val ((getListAt st a).getD i.toNat .nilV)) ∧
    (∀ (a : Nat) (i : Int), i < 0 ∨ ((getListAt st a).length : Int) ≤ i →
      evalSubscript st pos (.listV a) (.intV i) =
        .err (.valueErr pos ("subscript " ++ intToString i ++ " out of range"))) ∧
    (∀ (a : Nat) (k : Bytes) (v : Val), alLookup (getMapAt st a) k = some v →
      evalSubscript st pos (.mapV a) (.strV k) = .val v) ∧
    (∀ (a : Nat) (k : Bytes), alLookup (getMapAt st a) k = none →
      evalSubscript st pos (.mapV a) (.strV k) =
        .err (.valueErr pos ("key not found: " ++ bytesToString (goQuote k)))) := by
  refine ⟨?_, ?_, ?_, ?_, ?_, ?_⟩
  · intro s i h0 h1
    simp only [evalSubscript]
    rw [if_neg (by omega)]
  · intro s i h
    simp only [evalSubscript]
    rw [if_pos (by omega)]
  · intro a i h0 h1
    simp only [evalSubscript]
    rw [if_neg (by omega)]
  · intro a i h
    simp only [evalSubscript]
    rw [if_pos (by omega)]
  · intro a k v h
    simp only [evalSubscript, h]
  · intro a k h
    simp only [evalSubscript, h]

/-- A state with one two-element list and one single-entry map for the
C8 witness. -/
def c8State : InterpState :=
  { baseState with
    listHeap := [[.intV 10, .intV 20]]
    mapHeap := [[(strBytes "k", .intV 7)]] }

theorem claim_C8_witness :
    evalSubscript c8State ⟨1, 1⟩ (.strV (strBytes "abc")) (.intV 1) =
      .val (.strV [(strBytes "abc").getD (Int.toNat 1) 0]) ∧
    evalSubscript c8State ⟨1, 1⟩ (.strV (strBytes "abc")) (.intV (-1)) =
      .err (.valueErr ⟨1, 1⟩ ("subscript " ++ intToString (-1) ++ " out of range")) ∧
    evalSubscript c8State ⟨1, 1⟩ (.listV 0) (.intV 1) =
      .val ((getListAt c8State 0).getD (Int.toNat 1) .nilV) ∧
    evalSubscript c8State ⟨1, 1⟩ (.listV 0) (.intV 2) =
      .err (.valueErr ⟨1, 1⟩ ("subscript " ++ intToString 2 ++ " out of range")) ∧
    evalSubscript c8State ⟨1, 1⟩ (.mapV 0) (.strV (strBytes "k")) = .val (.intV 7) ∧
    evalSubscript c8State ⟨1, 1⟩ (.mapV 0) (.strV (strBytes "x")) =
      .err (.valueErr ⟨1, 1⟩ ("key not found: " ++ bytesToString (goQuote (strBytes "x")))) :=
  ⟨(claim_C8_subscript_read c8State ⟨1, 1⟩).1 _ 1 (by decide) (by decide),
   (claim_C8_subscript_read c8State ⟨1, 1⟩).2.1 _ (-1) (Or.inl (by decide)),
   (claim_C8_subscript_read c8State ⟨1, 1⟩).2.2.1 0 1 (by decide) (by decide),
   (claim_C8_subscript_read c8State ⟨1, 1⟩).2.2.2.1 0 2 (Or.inr (by decide)),
   (claim_C8_subscript_read c8State ⟨1, 1⟩).2.2.2.2.1 0 _ (.intV 7) rfl,
   (claim_C8_subscript_read c8State ⟨1, 1⟩).2.2.2.2.2 0 _ rfl⟩

end LL

namespace LL

/-! ### C5 and C10: user-function argument handling -/

theorem find?_mapped_ne {κ : Type} [DecidableEq κ] (k k' : κ) (v : Val)
    (hk : k' ≠ k) (sc : List (κ × Val)) :
    List.find? (fun p => decide (p.1 = k'))
        (sc.map (fun p => if p.1 = k then (k, v) else p)) =
      List.find? (fun p => decide (p.1 = k')) sc := by
  induction sc with
  | nil => rfl
  | cons q rest ih =>
    simp only [List.map_cons, List.find?]
    by_cases hq : q.1 = k
    · simp only [if_pos hq]
      have h1 : (decide (k = k')) = false := decide_eq_false (fun h => hk h.symm)
      have h2 : (decide (q.1 = k')) = false :=
        decide_eq_false (by rw [hq]; exact fun h => hk h.symm)
      simp only [h1, h2, cond_false]
      exact ih
    · simp only [if_neg hq]
      cases hq2 : decide (q.1 = k') with
      | true => simp only [hq2]
      | false =>
        simp only [hq2, cond_false]
        exact ih

theorem find?_mapped_self {κ : Type} [DecidableEq κ] (k : κ) (v : Val)
    (sc : List (κ × Val)) (hany : sc.any (fun p => decide (p.1 = k)) = true) :
    List.find? (fun p => decide (p.1 = k))
        (sc.map (fun p => if p.1 = k then (k, v) else p)) = some (k, v) := by
  induction sc with
  | nil => simp at hany
  | cons q rest ih =>
    simp only [List.map_cons, List.find?]
    by_cases hq : q.1 = k
    · simp only [if_pos hq]
      simp
    · simp only [if_neg hq]
      have hd : (decide (q.1 = k)) = false := decide_eq_false hq
      simp only [hd, cond_false]
      apply ih
      simpa [hd] using hany

theorem alLookup_alInsert {κ : Type} [DecidableEq κ] (sc : List (κ × Val))
    (k k' : κ) (v : Val) :
    alLookup (alInsert sc k v) k' = if k' = k then some v else alLookup sc k' := by
  unfold alInsert alLookup
  by_cases hany : sc.any (fun p => p.1 = k)
  · rw [if_pos hany]
    by_cases hk : k' = k
    · subst hk
      rw [if_pos rfl, find?_mapped_self k' v sc hany]
      rfl
    · rw [if_neg hk, find?_mapped_ne k k' v hk sc]
  · rw [if_neg hany, List.find?_append]
    have hnone : sc.find? (fun p => decide (p.1 = k)) = none := by
      rw [List.find?_eq_none]
      intro p hp hpk
      simp only [decide_eq_true_eq] at hpk
      exact hany (List.any_eq_true.mpr ⟨p, hp, by simp [hpk]⟩)
    by_cases hk : k' = k
    · subst hk
      simp [hnone, List.find?]
    · cases hfind : sc.find? (fun p => decide (p.1 = k')) with
      | some p => simp [hfind, hk]
      | none =>
        have hd : (decide (k = k')) = false :=
          decide_eq_false (fun h => hk h.symm)
        simp [hfind, List.find?, hd, hk]

theorem foldl_alInsert_lookup_of_notmem {pairs : List (String × Val)}
    (sc : Scope) (k : String) (h : k ∉ pairs.map Prod.fst) :
    alLookup (pairs.foldl (fun s p => alInsert s p.1 p.2) sc) k = alLookup sc k := by
  induction pairs generalizing sc with
  | nil => rfl
  | cons q rest ih =>
    simp only [List.map_cons, List.mem_cons, not_or] at h
    simp only [List.foldl_cons]
    rw [ih (alInsert sc q.1 q.2) h.2, alLookup_alInsert, if_neg h.1]

theorem foldl_alInsert_lookup_of_mem {pairs : List (String × Val)}
    (sc : Scope) (k : String) (v : Val)
    (hnd : (pairs.map Prod.fst).Nodup) (hmem : (k, v) ∈ pairs) :
    alLookup (pairs.foldl (fun s p => alInsert s p.1 p.2) sc) k = some v := by
  induction pairs generalizing sc with
  | nil => cases hmem
  | cons q rest ih =>
    simp only [List.map_cons, List.nodup_cons] at hnd
    rcases List.mem_cons.mp hmem with rfl | hrest
    · simp only [List.foldl_cons]
      rw [foldl_alInsert_lookup_of_notmem _ _ hnd.1, alLookup_alInsert, if_pos rfl]
    · simp only [List.foldl_cons]
      exact ih (alInsert sc q.1 q.2) hnd.2 hrest

theorem zip_map_fst_sublist : ∀ (l₁ : List String) (l₂ : List Val),
    ((l₁.zip l₂).map Prod.fst).Sublist l₁
  | [], _ => by simp
  | _ :: _, [] => by simp
  | a :: l₁, b :: l₂ => by
    simp only [List.zip_cons_cons, List.map_cons]
    exact (zip_map_fst_sublist l₁ l₂).cons₂ a

/-- C5: user-function call binding.  Without an ellipsis, an argument
count different from the parameter count raises the TypeError
`<name>() requires <k> arg(s), got <n>`, and a matching count binds the
arguments positionally.  With an ellipsis and at least k-1 arguments,
the first k-1 arguments stay positional and the remaining ones are
collected into a freshly allocated list bound as the last parameter.
The last conjunct states positional binding: with distinct parameter
names, the parameter scope built by the binding loop maps each
parameter to the argument at its index. -/
theorem claim_C5_user_call_binding (f : FuncUser) (pos : Position)
    (args : List Val) (st : InterpState) :
    (f.ellipsis = false → args.length ≠ f.params.length →
      prepareUserArgs f pos args st =
        .errA (.typeErr pos (arityMsg f.name f.params.length args.length))) ∧
    (f.ellipsis = false → args.length = f.params.length →
      prepareUserArgs f pos args st = .okA args st) ∧
    (∀ p ps, f.ellipsis = true → f.params = p :: ps → ps.length ≤ args.length →
      prepareUserArgs f pos args st =
        .okA (args.take ps.length ++ [Val.listV st.listHeap.length])
          { st with listHeap := st.listHeap ++ [args.drop ps.length] }) ∧
    (∀ (params : List String) (newArgs : List Val) (i : Nat),
      params.Nodup → (h₁ : i < params.length) → (h₂ : i < newArgs.length) →
      alLookup (bindParams params newArgs) params[i] = some newArgs[i]) := by
  refine ⟨?_, ?_, ?_, ?_⟩
  · intro he hne
    simp [prepareUserArgs, he, ensureNumArgsE, hne]
  · intro he heq
    simp [prepareUserArgs, he, ensureNumArgsE, heq]
  · intro p ps he hp hlen
    simp only [prepareUserArgs, he, if_pos, hp]
    rw [if_neg (by omega)]
    have hcount : (args.take ps.length ++ [Val.listV st.listHeap.length]).length =
        (p :: ps).length := by
      simp [List.length_take, Nat.min_eq_left hlen]
    simp [ensureNumArgsE, allocList, hcount]
  · intro params newArgs i hnd h₁ h₂
    have hmem : (params[i], newArgs[i]) ∈ params.zip newArgs := by
      have hlt : i < (params.zip newArgs).length := by
        simp [List.length_zip]
        omega
      have hz : (params.zip newArgs)[i] = (params[i], newArgs[i]) := by
        simp [List.getElem_zip]
      exact hz ▸ List.getElem_mem hlt
    exact foldl_alInsert_lookup_of_mem [] params[i] newArgs[i]
      (hnd.sublist (zip_map_fst_sublist params newArgs)) hmem

/-- Witness for C5 at a concrete function: f(a, b...) called with
three arguments binds a := 1 and b := [2, 3] in a fresh list. -/
theorem claim_C5_witness :
    prepareUserArgs ⟨"f", ["a", "b"], true, [], 0⟩ ⟨1, 1⟩
        [.intV 1, .intV 2, .intV 3] baseState =
      .okA [.intV 1, .listV 0]
        { baseState with listHeap := [[.intV 2, .intV 3]] } ∧
    prepareUserArgs ⟨"g", ["a"], false, [], 0⟩ ⟨1, 1⟩ [] baseState =
      .errA (.typeErr ⟨1, 1⟩ ("g() requires 1 arg, got 0")) ∧
    alLookup (bindParams ["a", "b"] [.intV 1, .listV 0]) "b" = some (.listV 0) := by
  refine ⟨?_, ?_, ?_⟩
  · exact (claim_C5_user_call_binding ⟨"f", ["a", "b"], true, [], 0⟩ ⟨1, 1⟩
      [.intV 1, .intV 2, .intV 3] baseState).2.2.1 "a" ["b"] rfl rfl (by decide)
  · exact (claim_C5_user_call_binding ⟨"g", ["a"], false, [], 0⟩ ⟨1, 1⟩
      [] baseState).1 rfl (by decide)
  · exact (claim_C5_user_call_binding ⟨"f", [], false, [], 0⟩ ⟨1, 1⟩ [] baseState).2.2.2
      ["a", "b"] [.intV 1, .listV 0] 1 (by decide) (by decide) (by decide)

end LL

namespace LL

/-- C10: in userFunction.call with an ellipsis, the slice expression
`args[len(f.Parameters)-1:]` is evaluated before ensureNumArgs, so a
call with fewer than k-1 arguments is a Go slice-bounds panic -- an
unguarded host panic, not an interpreter TypeError.  Moreover, for
ellipsis calls the rebuilt argument list always has exactly k entries,
so the guarded TypeError branch of ensureNumArgs is unreachable. -/
theorem claim_C10_ellipsis_arity_panic (n : Nat) (f : FuncUser)
    (pos : Position) (args : List Val) (st : InterpState) (a : Nat)
    (p : String) (ps : List String)
    (hf : st.funcHeap.get? a = some (.user f))
    (he : f.ellipsis = true)
    (hp : f.params = p :: ps)
    (hn : args.length < ps.length) :
    run (n + 1) (.callV pos (.funcV a) args) st =
      some (.hostPanic "runtime error: slice bounds out of range", st) ∧
    prepareUserArgs f pos args st =
      .panicA "runtime error: slice bounds out of range" ∧
    (∀ (args' : List Val) (e : Err), prepareUserArgs f pos args' st ≠ .errA e) := by
  have hprep : prepareUserArgs f pos args st =
      .panicA "runtime error: slice bounds out of range" := by
    simp [prepareUserArgs, he, hp, hn]
  refine ⟨?_, hprep, ?_⟩
  · simp only [run, hf, hprep]
  · intro args' e
    simp only [prepareUserArgs, he, hp, if_true]
    split
    · intro h
      cases h
    · rename_i hge
      have hcount : (args'.take ps.length ++ [Val.listV st.listHeap.length]).length =
          (p :: ps).length := by
        simp only [List.length_append, List.length_take, List.length_cons,
          List.length_singleton]
        rw [Nat.min_eq_left (Nat.le_of_not_lt hge)]
        simp
      simp [ensureNumArgsE, allocList, hcount]

/-- Witness for C10: calling `func f(a, b...) {}` with no arguments. -/
theorem claim_C10_witness :
    run 9 (.callV ⟨1, 1⟩ (.funcV 0) [])
        { baseState with funcHeap := [.user ⟨"f", ["a", "b"], true, [], 0⟩] } =
      some (.hostPanic "runtime error: slice bounds out of range",
        { baseState with funcHeap := [.user ⟨"f", ["a", "b"], true, [], 0⟩] }) :=
  (claim_C10_ellipsis_arity_panic 8 ⟨"f", ["a", "b"], true, [], 0⟩ ⟨1, 1⟩ []
    { baseState with funcHeap := [.user ⟨"f", ["a", "b"], true, [], 0⟩] } 0
    "a" ["b"] rfl rfl rfl (by decide)).1

end LL

namespace LL

/-- C7: `and`/`or` evaluation.  The left operand is evaluated first (on
the ops-bumped state) and must be a bool, else TypeError with no
truthiness coercion; if it alone determines the result (false for and,
true for or) the right operand is not evaluated -- the resulting state
is exactly the state after the left operand, so no side effects of the
right occur; otherwise the right operand is evaluated and must be a
bool (else TypeError), and its value is the result. -/
theorem claim_C7_and_or_short_circuit (n : Nat) (st : InterpState)
    (pos : Position) (le re : Expr) :
    (∀ v st₁, run n (.evalE le) (bumpOps st) = some (.val v, st₁) →
      (∀ b, v ≠ .boolV b) →
      run (n + 1) (.evalE (.binary pos le .andT re)) st =
        some (.err (.typeErr pos ("and requires two bools")), st₁)) ∧
    (∀ st₁, run n (.evalE le) (bumpOps st) = some (.val (.boolV false), st₁) →
      run (n + 1) (.evalE (.binary pos le .andT re)) st =
        some (.val (.boolV false), st₁)) ∧
    (∀ st₁ b st₂, run n (.evalE le) (bumpOps st) = some (.val (.boolV true), st₁) →
      run n (.evalE re) st₁ = some (.val (.boolV b), st₂) →
      run (n + 1) (.evalE (.binary pos le .andT re)) st =
        some (.val (.boolV b), st₂)) ∧
    (∀ st₁ v st₂, run n (.evalE le) (bumpOps st) = some (.val (.boolV true), st₁) →
      run n (.evalE re) st₁ = some (.val v, st₂) → (∀ b, v ≠ .boolV b) →
      run (n + 1) (.evalE (.binary pos le .andT re)) st =
        some (.err (.typeErr pos ("and requires two bools")), st₂)) ∧
    (∀ v st₁, run n (.evalE le) (bumpOps st) = some (.val v, st₁) →
      (∀ b, v ≠ .boolV b) →
      run (n + 1) (.evalE (.binary pos le .orT re)) st =
        some (.err (.typeErr pos ("or requires two bools")), st₁)) ∧
    (∀ st₁, run n (.evalE le) (bumpOps st) = some (.val (.boolV true), st₁) →
      run (n + 1) (.evalE (.binary pos le .orT re)) st =
        some (.val (.boolV true), st₁)) ∧
    (∀ st₁ b st₂, run n (.evalE le) (bumpOps st) = some (.val (.boolV false), st₁) →
      run n (.evalE re) st₁ = some (.val (.boolV b), st₂) →
      run (n + 1) (.evalE (.binary pos le .orT re)) st =
        some (.val (.boolV b), st₂)) ∧
    (∀ st₁ v st₂, run n (.evalE le) (bumpOps st) = some (.val (.boolV false), st₁) →
      run n (.evalE re) st₁ = some (.val v, st₂) → (∀ b, v ≠ .boolV b) →
      run (n + 1) (.evalE (.binary pos le .orT re)) st =
        some (.err (.typeErr pos ("or requires two bools")), st₂)) := by
  refine ⟨?_, ?_, ?_, ?_, ?_, ?_, ?_, ?_⟩
  · intro v st₁ h₁ hb
    simp only [run, isStrictBinOp, h₁]
    cases v with
    | boolV b => exact absurd rfl (hb b)
    | nilV => simp
    | intV k => simp
    | strV s => simp
    | listV a => simp
    | mapV a => simp
    | funcV a => simp
  · intro st₁ h₁
    simp only [run, isStrictBinOp, h₁]
    simp
  · intro st₁ b st₂ h₁ h₂
    simp only [run, isStrictBinOp, h₁]
    simp [h₂]
  · intro st₁ v st₂ h₁ h₂ hb
    simp only [run, isStrictBinOp, h₁]
    simp only [show ((false : Bool) = true) = False by simp, if_false, if_pos]
    simp [h₂]
  · intro v st₁ h₁ hb
    simp only [run, isStrictBinOp, h₁]
    cases v with
    | boolV b => exact absurd rfl (hb b)
    | nilV => simp
    | intV k => simp
    | strV s => simp
    | listV a => simp
    | mapV a => simp
    | funcV a => simp
  · intro st₁ h₁
    simp only [run, isStrictBinOp, h₁]
    simp
  · intro st₁ b st₂ h₁ h₂
    simp only [run, isStrictBinOp, h₁]
    simp [h₂]
  · intro st₁ v st₂ h₁ h₂ hb
    simp only [run, isStrictBinOp, h₁]
    simp only [show ((false : Bool) = true) = False by simp, if_false, if_pos]
    simp [h₂]

end LL

namespace LL

/-- Witness for C7: `false and true` short-circuits to false without
evaluating the right operand (the state is the one after the left
operand only). -/
theorem claim_C7_witness :
    run 5 (.evalE (.binary ⟨1, 3⟩ (.lit ⟨1, 1⟩ (.boolL false)) .andT
        (.lit ⟨1, 5⟩ (.boolL true)))) (newInterpreterState [] [] []) =
      some (.val (.boolV false), bumpOps (bumpOps (newInterpreterState [] [] []))) :=
  (claim_C7_and_or_short_circuit 4 (newInterpreterState [] [] []) ⟨1, 3⟩
    (.lit ⟨1, 1⟩ (.boolL false)) (.lit ⟨1, 5⟩ (.boolL true))).2.1
    (bumpOps (bumpOps (newInterpreterState [] [] []))) rfl

end LL

namespace LL

/-! ### C6: scope discipline of the evaluator -/

/-- The binding names of the scope object at address `i`. -/
def scopeKeysAt (st : InterpState) (i : Nat) : List String :=
  (getScopeAt st i).map Prod.fst

/-- Scope discipline between the state at the start and at the end of
an evaluator step: the scope stack is restored, the scope heap only
grows, and every already-allocated scope other than the top of the
stack keeps its exact set of binding names. -/
def ScopesOK (st st' : InterpState) : Prop :=
  st'.scopes = st.scopes ∧
  st.scopeHeap.length ≤ st'.scopeHeap.length ∧
  ∀ i, i < st.scopeHeap.length → some i ≠ st.scopes.head? →
    scopeKeysAt st' i = scopeKeysAt st i

theorem sok_rfl (st : InterpState) : ScopesOK st st :=
  ⟨rfl, Nat.le_refl _, fun _ _ _ => rfl⟩

theorem sok_trans {s₁ s₂ s₃ : InterpState} (h₁ : ScopesOK s₁ s₂)
    (h₂ : ScopesOK s₂ s₃) : ScopesOK s₁ s₃ := by
  refine ⟨h₂.1.trans h₁.1, Nat.le_trans h₁.2.1 h₂.2.1, ?_⟩
  intro i hi hh
  rw [h₂.2.2 i (Nat.lt_of_lt_of_le hi h₁.2.1) (h₁.1 ▸ hh)]
  exact h₁.2.2 i hi hh

theorem sok_same {st st' : InterpState} (hs : st'.scopes = st.scopes)
    (hh : st'.scopeHeap = st.scopeHeap) : ScopesOK st st' :=
  ⟨hs, hh ▸ Nat.le_refl _, fun i _ _ => by
    unfold scopeKeysAt getScopeAt
    rw [hh]⟩

theorem assignVar_scopes (st : InterpState) (name : String) (v : Val) :
    (assignVar st name v).scopes = st.scopes := by
  unfold assignVar
  split
  · rfl
  · rfl

theorem assignVar_heapLength (st : InterpState) (name : String) (v : Val) :
    (assignVar st name v).scopeHeap.length = st.scopeHeap.length := by
  unfold assignVar
  split
  · rfl
  · simp [setScopeAt]

theorem assignVar_keys_off (st : InterpState) (name : String) (v : Val)
    (i : Nat) (hh : some i ≠ st.scopes.head?) :
    scopeKeysAt (assignVar st name v) i = scopeKeysAt st i := by
  unfold assignVar
  split
  · rfl
  · rename_i a rest heq
    have hia : i ≠ a := by
      intro hia
      rw [heq] at hh
      exact hh (by rw [hia]; rfl)
    unfold scopeKeysAt getScopeAt setScopeAt
    simp only
    rw [List.getD_eq_getElem?_getD, List.getElem?_set_ne (by omega),
      ← List.getD_eq_getElem?_getD]

theorem sok_assign (st : InterpState) (name : String) (v : Val) :
    ScopesOK st (assignVar st name v) :=
  ⟨assignVar_scopes st name v,
   Nat.le_of_eq (assignVar_heapLength st name v).symm,
   fun i _ hh => assignVar_keys_off st name v i hh⟩

theorem keys_append_lt (st : InterpState) (sc : Scope) (i : Nat)
    (hi : i < st.scopeHeap.length) :
    scopeKeysAt { st with scopeHeap := st.scopeHeap ++ [sc] } i =
      scopeKeysAt st i := by
  unfold scopeKeysAt getScopeAt
  simp only
  rw [List.getD_eq_getElem?_getD, List.getElem?_append, if_pos hi,
    ← List.getD_eq_getElem?_getD]

theorem sok_allocScope (st : InterpState) (sc : Scope) :
    ScopesOK st { st with scopeHeap := st.scopeHeap ++ [sc] } :=
  ⟨rfl, by simp, fun i hi _ => keys_append_lt st sc i hi⟩

end LL

namespace LL

theorem binApply_sok {n : Nat} {op : Tok} {pos : Position} {l r : Val}
    {st : InterpState} {o : EvOut} {st' : InterpState}
    (h : binApply n op pos l r st = some (o, st')) : ScopesOK st st' := by
  cases op <;> simp only [binApply] at h
  all_goals
    first
      | (cases h; exact sok_rfl _)
      | (obtain ⟨b, hb, heq⟩ := Option.map_eq_some'.mp h
         cases heq
         exact sok_rfl _)
      | (split at h <;> cases h <;> exact sok_rfl _)
      | (rw [Option.some_inj] at h
         have hst : (evalPlus pos l r st).2 = st' := by rw [h]
         rw [← hst]
         unfold evalPlus
         repeat' split
         all_goals exact sok_same rfl rfl)

theorem runBuiltin_fields {n : Nat} {b : BuiltinId} {pos : Position}
    {args : List Val} {st : InterpState} {o : EvOut} {st' : InterpState}
    (h : runBuiltin n b pos args st = some (o, st')) :
    st'.scopes = st.scopes ∧ st'.scopeHeap = st.scopeHeap := by
  cases b <;> simp only [runBuiltin] at h <;> repeat' split at h
  all_goals cases h
  all_goals exact ⟨rfl, rfl⟩

theorem prepareUserArgs_fields {f : FuncUser} {pos : Position}
    {args : List Val} {st : InterpState} {na : List Val} {st' : InterpState}
    (h : prepareUserArgs f pos args st = .okA na st') :
    st'.scopes = st.scopes ∧ st'.scopeHeap = st.scopeHeap := by
  unfold prepareUserArgs at h
  repeat' (first | split at h | dsimp only at h)
  all_goals cases h
  all_goals exact ⟨rfl, rfl⟩

theorem assignSubscript_fields (st : InterpState) (pos : Position) (c s v : Val) :
    (assignSubscript st pos c s v).2.scopes = st.scopes ∧
    (assignSubscript st pos c s v).2.scopeHeap = st.scopeHeap := by
  unfold assignSubscript
  repeat' (first | split | dsimp only)
  all_goals exact ⟨rfl, rfl⟩

theorem bindAll_fields (pairs : List (String × Val)) : ∀ (st : InterpState),
    (bindAll st pairs).scopes = st.scopes ∧
    (bindAll st pairs).scopeHeap.length = st.scopeHeap.length ∧
    ∀ i, some i ≠ st.scopes.head? →
      scopeKeysAt (bindAll st pairs) i = scopeKeysAt st i := by
  induction pairs with
  | nil => exact fun st => ⟨rfl, rfl, fun _ _ => rfl⟩
  | cons p rest ih =>
    intro st
    have hstep := ih (assignVar st p.1 p.2)
    unfold bindAll at hstep ⊢
    simp only [List.foldl_cons]
    refine ⟨hstep.1.trans (assignVar_scopes st p.1 p.2),
      hstep.2.1.trans (assignVar_heapLength st p.1 p.2), ?_⟩
    intro i hi
    rw [hstep.2.2 i (by rw [assignVar_scopes]; exact hi)]
    exact assignVar_keys_off st p.1 p.2 i hi

end LL
namespace LL

theorem sok_trans3 {s₁ s₂ s₃ s₄ : InterpState} (h₁ : ScopesOK s₁ s₂)
    (h₂ : ScopesOK s₂ s₃) (h₃ : ScopesOK s₃ s₄) : ScopesOK s₁ s₄ :=
  sok_trans h₁ (sok_trans h₂ h₃)

theorem sok_trans4 {s₁ s₂ s₃ s₄ s₅ : InterpState} (h₁ : ScopesOK s₁ s₂)
    (h₂ : ScopesOK s₂ s₃) (h₃ : ScopesOK s₃ s₄) (h₄ : ScopesOK s₄ s₅) :
    ScopesOK s₁ s₅ :=
  sok_trans h₁ (sok_trans3 h₂ h₃ h₄)

theorem sok_trans5 {s₁ s₂ s₃ s₄ s₅ s₆ : InterpState} (h₁ : ScopesOK s₁ s₂)
    (h₂ : ScopesOK s₂ s₃) (h₃ : ScopesOK s₃ s₄) (h₄ : ScopesOK s₄ s₅)
    (h₅ : ScopesOK s₅ s₆) : ScopesOK s₁ s₆ :=
  sok_trans h₁ (sok_trans4 h₂ h₃ h₄ h₅)

theorem sok_bumpOps (st : InterpState) : ScopesOK st (bumpOps st) :=
  sok_same rfl rfl

theorem sok_allocL (st : InterpState) (l : List Val) :
    ScopesOK st (allocList st l).2 :=
  sok_same rfl rfl

theorem sok_allocM (st : InterpState) (m : MapObj) :
    ScopesOK st (allocMap st m).2 :=
  sok_same rfl rfl

theorem sok_allocF (st : InterpState) (f : FuncObj) :
    ScopesOK st (allocFunc st f).2 :=
  sok_same rfl rfl

theorem sok_assignSub {st : InterpState} {pos : Position} {c s v : Val}
    {r : Sum Err Unit} {st' : InterpState}
    (h : assignSubscript st pos c s v = (r, st')) : ScopesOK st st' := by
  have h2 := assignSubscript_fields st pos c s v
  rw [h] at h2
  exact sok_same h2.1 h2.2

theorem sok_builtinMap {n : Nat} {b : BuiltinId} {pos : Position}
    {args : List Val} {st : InterpState} {o : Out} {st' : InterpState}
    (h : (runBuiltin n b pos args (bumpBuiltin st)).map
      (fun r => (r.1.toOut, r.2)) = some (o, st')) : ScopesOK st st' := by
  obtain ⟨r, hr, hf⟩ := Option.map_eq_some'.mp h
  cases hf
  have h2 := runBuiltin_fields hr
  exact sok_trans (sok_same rfl rfl) (sok_same h2.1 h2.2)

theorem sok_userCall {n : Nat} {f : FuncUser} {pos : Position}
    {args : List Val} {st : InterpState} {newArgs : List Val}
    {st₁ : InterpState} {o₅ : Out} {st₅ : InterpState}
    (hprep : prepareUserArgs f pos args st = .okA newArgs st₁)
    (hrun : run n (.execB f.body)
      (bumpUser (bindAll
        (pushScope (allocScope (pushScope st₁ f.closure) []).2
          (allocScope (pushScope st₁ f.closure) []).1)
        (f.params.zip newArgs))) = some (o₅, st₅))
    (ih : ∀ (t : Task) (s : InterpState) (o : Out) (s' : InterpState),
      run n t s = some (o, s') → ScopesOK s s') :
    ScopesOK st (popScope (popScope st₅)) := by
  obtain ⟨hsc₁, hhp₁⟩ := prepareUserArgs_fields hprep
  have hb := bindAll_fields (f.params.zip newArgs)
    (pushScope (allocScope (pushScope st₁ f.closure) []).2
      (allocScope (pushScope st₁ f.closure) []).1)
  have h5 := ih _ _ _ _ hrun
  have lenC : (bumpUser (bindAll
      (pushScope (allocScope (pushScope st₁ f.closure) []).2
        (allocScope (pushScope st₁ f.closure) []).1)
      (f.params.zip newArgs))).scopeHeap.length = st.scopeHeap.length + 1 := by
    show (bindAll
      (pushScope (allocScope (pushScope st₁ f.closure) []).2
        (allocScope (pushScope st₁ f.closure) []).1)
      (f.params.zip newArgs)).scopeHeap.length = st.scopeHeap.length + 1
    rw [hb.2.1]
    show (st₁.scopeHeap ++ [[]]).length = st.scopeHeap.length + 1
    simp [hhp₁]
  refine ⟨?_, ?_, ?_⟩
  · show st₅.scopes.tail.tail = st.scopes
    rw [h5.1]
    show (bindAll
      (pushScope (allocScope (pushScope st₁ f.closure) []).2
        (allocScope (pushScope st₁ f.closure) []).1)
      (f.params.zip newArgs)).scopes.tail.tail = st.scopes
    rw [hb.1]
    show st₁.scopes = st.scopes
    exact hsc₁
  · show st.scopeHeap.length ≤ st₅.scopeHeap.length
    have hle := h5.2.1
    rw [lenC] at hle
    omega
  · intro i hi hhead
    have hip : i < st₁.scopeHeap.length := by rw [hhp₁]; exact hi
    have hneP : (some i : Option Nat) ≠ some st₁.scopeHeap.length := by
      intro hcon
      have : i = st₁.scopeHeap.length := Option.some.inj hcon
      omega
    have k1 : scopeKeysAt st₅ i = scopeKeysAt (bumpUser (bindAll
        (pushScope (allocScope (pushScope st₁ f.closure) []).2
          (allocScope (pushScope st₁ f.closure) []).1)
        (f.params.zip newArgs))) i := by
      refine h5.2.2 i ?_ ?_
      · rw [lenC]; omega
      · show (some i : Option Nat) ≠ (bindAll
          (pushScope (allocScope (pushScope st₁ f.closure) []).2
            (allocScope (pushScope st₁ f.closure) []).1)
          (f.params.zip newArgs)).scopes.head?
        rw [hb.1]
        exact hneP
    have k2 : scopeKeysAt (bumpUser (bindAll
        (pushScope (allocScope (pushScope st₁ f.closure) []).2
          (allocScope (pushScope st₁ f.closure) []).1)
        (f.params.zip newArgs))) i = scopeKeysAt
        (pushScope (allocScope (pushScope st₁ f.closure) []).2
          (allocScope (pushScope st₁ f.closure) []).1) i :=
      hb.2.2 i hneP
    have k3 : scopeKeysAt
        (pushScope (allocScope (pushScope st₁ f.closure) []).2
          (allocScope (pushScope st₁ f.closure) []).1) i =
        scopeKeysAt st₁ i :=
      keys_append_lt (pushScope st₁ f.closure) [] i hip
    have k4 : scopeKeysAt st₁ i = scopeKeysAt st i := by
      unfold scopeKeysAt getScopeAt
      rw [hhp₁]
    show scopeKeysAt st₅ i = scopeKeysAt st i
    exact ((k1.trans k2).trans k3).trans k4

end LL
namespace LL

section

attribute [local irreducible] bumpOps bumpUser bumpBuiltin assignVar
attribute [local irreducible] allocList allocMap allocFunc allocScope
attribute [local irreducible] pushScope popScope bindAll
attribute [local irreducible] assignSubscript prepareUserArgs
attribute [local irreducible] binApply runBuiltin

set_option maxHeartbeats 4000000 in
theorem run_scopes_ok : ∀ (n : Nat) (t : Task) (s : InterpState)
    (o : Out) (s' : InterpState),
    run n t s = some (o, s') → ScopesOK s s' := by
  intro n
  induction n with
  | zero =>
    intro t s o s' h
    simp [run] at h
  | succ n ih =>
    intro t s o s' h
    simp only [run] at h
    repeat' (first | split at h | dsimp only at h)
    all_goals (try cases h)
    all_goals
      (repeat'
        (first
          | exact sok_rfl _
          | exact sok_userCall (by assumption) (by assumption) ih
          | refine sok_trans ?_ (sok_bumpOps _)
          | refine sok_trans ?_ (sok_assign _ _ _)
          | refine sok_trans ?_ (sok_allocL _ _)
          | refine sok_trans ?_ (sok_allocF _ _)
          | refine sok_trans ?_ (sok_allocM _ _)
          | refine sok_trans ?_ (binApply_sok (by assumption))
          | refine sok_trans ?_ (sok_assignSub (by assumption))
          | refine sok_trans ?_ (sok_builtinMap (by assumption))
          | refine sok_trans ?_ (ih _ _ _ _ (by assumption))))

end

end LL
namespace LL

theorem userCall_fields {n : Nat} {f : FuncUser} {pos : Position}
    {args : List Val} {st : InterpState} {newArgs : List Val}
    {st₁ : InterpState} {o₅ : Out} {st₅ : InterpState}
    (hprep : prepareUserArgs f pos args st = .okA newArgs st₁)
    (hrun : run n (.execB f.body)
      (bumpUser (bindAll
        (pushScope (allocScope (pushScope st₁ f.closure) []).2
          (allocScope (pushScope st₁ f.closure) []).1)
        (f.params.zip newArgs))) = some (o₅, st₅)) :
    (popScope (popScope st₅)).scopes = st.scopes ∧
    st.scopeHeap.length ≤ (popScope (popScope st₅)).scopeHeap.length ∧
    ∀ i, i < st.scopeHeap.length →
      scopeKeysAt (popScope (popScope st₅)) i = scopeKeysAt st i := by
  obtain ⟨hsc₁, hhp₁⟩ := prepareUserArgs_fields hprep
  have hb := bindAll_fields (f.params.zip newArgs)
    (pushScope (allocScope (pushScope st₁ f.closure) []).2
      (allocScope (pushScope st₁ f.closure) []).1)
  have h5 := run_scopes_ok n _ _ _ _ hrun
  have lenC : (bumpUser (bindAll
      (pushScope (allocScope (pushScope st₁ f.closure) []).2
        (allocScope (pushScope st₁ f.closure) []).1)
      (f.params.zip newArgs))).scopeHeap.length = st.scopeHeap.length + 1 := by
    show (bindAll
      (pushScope (allocScope (pushScope st₁ f.closure) []).2
        (allocScope (pushScope st₁ f.closure) []).1)
      (f.params.zip newArgs)).scopeHeap.length = st.scopeHeap.length + 1
    rw [hb.2.1]
    show (st₁.scopeHeap ++ [[]]).length = st.scopeHeap.length + 1
    simp [hhp₁]
  refine ⟨?_, ?_, ?_⟩
  · show st₅.scopes.tail.tail = st.scopes
    rw [h5.1]
    show (bindAll
      (pushScope (allocScope (pushScope st₁ f.closure) []).2
        (allocScope (pushScope st₁ f.closure) []).1)
      (f.params.zip newArgs)).scopes.tail.tail = st.scopes
    rw [hb.1]
    show st₁.scopes = st.scopes
    exact hsc₁
  · show st.scopeHeap.length ≤ st₅.scopeHeap.length
    have hle := h5.2.1
    rw [lenC] at hle
    omega
  · intro i hi
    have hip : i < st₁.scopeHeap.length := by rw [hhp₁]; exact hi
    have hneP : (some i : Option Nat) ≠ some st₁.scopeHeap.length := by
      intro hcon
      have : i = st₁.scopeHeap.length := Option.some.inj hcon
      omega
    have k1 : scopeKeysAt st₅ i = scopeKeysAt (bumpUser (bindAll
        (pushScope (allocScope (pushScope st₁ f.closure) []).2
          (allocScope (pushScope st₁ f.closure) []).1)
        (f.params.zip newArgs))) i := by
      refine h5.2.2 i ?_ ?_
      · rw [lenC]; omega
      · show (some i : Option Nat) ≠ (bindAll
          (pushScope (allocScope (pushScope st₁ f.closure) []).2
            (allocScope (pushScope st₁ f.closure) []).1)
          (f.params.zip newArgs)).scopes.head?
        rw [hb.1]
        exact hneP
    have k2 : scopeKeysAt (bumpUser (bindAll
        (pushScope (allocScope (pushScope st₁ f.closure) []).2
          (allocScope (pushScope st₁ f.closure) []).1)
        (f.params.zip newArgs))) i = scopeKeysAt
        (pushScope (allocScope (pushScope st₁ f.closure) []).2
          (allocScope (pushScope st₁ f.closure) []).1) i :=
      hb.2.2 i hneP
    have k3 : scopeKeysAt
        (pushScope (allocScope (pushScope st₁ f.closure) []).2
          (allocScope (pushScope st₁ f.closure) []).1) i =
        scopeKeysAt st₁ i :=
      keys_append_lt (pushScope st₁ f.closure) [] i hip
    have k4 : scopeKeysAt st₁ i = scopeKeysAt st i := by
      unfold scopeKeysAt getScopeAt
      rw [hhp₁]
    show scopeKeysAt st₅ i = scopeKeysAt st i
    exact ((k1.trans k2).trans k3).trans k4

/-- C6: a user-function call that terminates (normally, by early return,
or with an error or host panic unwinding out of the body) pops the two
scopes pushed at entry: the caller's scope stack is exactly restored, the
scope heap only grows, and every scope object that existed before the
call - in particular the caller's top scope - has exactly the same set
of binding names afterwards as before. -/
theorem claim_C6_scope_discipline {n : Nat} {pos : Position} {a : Nat}
    {args : List Val} {st : InterpState} {f : FuncUser}
    {o : Out} {st' : InterpState}
    (hf : st.funcHeap.get? a = some (.user f))
    (h : run n (.callV pos (.funcV a) args) st = some (o, st')) :
    st'.scopes = st.scopes ∧
    st.scopeHeap.length ≤ st'.scopeHeap.length ∧
    ∀ i, i < st.scopeHeap.length → scopeKeysAt st' i = scopeKeysAt st i := by
  cases n with
  | zero => simp [run] at h
  | succ n =>
    simp only [run] at h
    rw [hf] at h
    dsimp only at h
    split at h
    · cases h
      exact ⟨rfl, Nat.le_refl _, fun i _ => rfl⟩
    · cases h
      exact ⟨rfl, Nat.le_refl _, fun i _ => rfl⟩
    · rename_i newArgs st₁ hprep
      split at h
      · cases h
      · rename_i r heq
        obtain ⟨o₅, st₅⟩ := r
        split at h
        all_goals cases h
        all_goals exact userCall_fields hprep heq

end LL
namespace LL

/-- A one-parameter user function with an empty body, stored at
function-heap address 0. -/
def c6f : FuncUser := ⟨"f", ["x"], false, [], 0⟩

/-- A state with one global scope (address 0) and `c6f` in the function
heap. -/
def c6st : InterpState :=
  { baseState with scopes := [0]
                   scopeHeap := [[]]
                   funcHeap := [.user c6f] }

/-- The state after calling `c6f` with one argument: the stack is back
to the global scope, and the parameter scope allocated at address 1
holds the binding of `x`. -/
def c6out : InterpState :=
  { baseState with scopes := [0]
                   scopeHeap := [[], [("x", .intV 5)]]
                   funcHeap := [.user c6f]
                   stats := ⟨0, 1, 0⟩ }

theorem claim_C6_witness :
    c6st.funcHeap.get? 0 = some (.user c6f) ∧
    run 9 (.callV ⟨1, 1⟩ (.funcV 0) [.intV 5]) c6st = some (.val .nilV, c6out) ∧
    (c6out.scopes = c6st.scopes ∧
     c6st.scopeHeap.length ≤ c6out.scopeHeap.length ∧
     ∀ i, i < c6st.scopeHeap.length → scopeKeysAt c6out i = scopeKeysAt c6st i) :=
  ⟨rfl, rfl,
    @claim_C6_scope_discipline 9 ⟨1, 1⟩ 0 [.intV 5] c6st c6f
      (.val .nilV) c6out rfl rfl⟩

end LL
